import Mathlib

/-!
Shallow embedding of the `pf` Telegraf input plugin
(`plugins/inputs/pf/pf.go`), a parser for the textual output of
`pfctl -s info`, together with proofs about its specification.

Modelling conventions:
* raw text and single lines are lists of characters (`Line := List Char`);
* `bufio.Scanner` with `ScanLines` is modelled by `splitLines` plus explicit
  recursion over the remaining list of lines;
* each regular expression of the source is modelled by a dedicated function
  implementing Go's leftmost-first match semantics for that particular
  pattern (greedy `\s+`/`\d+` runs, lazy `(.*?)` searched shortest-first,
  with backtracking over the length of the leading whitespace run);
* the package-level mutable state (the `Found` flags of
  `pfctlOutputStanzas` and the `Value` slots of the three `Entry` tables)
  is threaded explicitly through a `SpecState` value; `freshSpecState` is
  the state the Go package starts in (all flags false, all values -1);
* the `telegraf.Accumulator` sink is modelled by the list of
  `AddFields(measurement, fields)` emissions returned by `gatherParse`;
* `map[string]interface{}` is modelled as an insertion-ordered association
  list (`Fields`): Go map semantics up to key ordering;
* `strconv.ParseInt(s, 10, 64)` is modelled by `parseInt64` (optional sign,
  base-10 digits, signed 64-bit range check).
-/

namespace PF

/-! ## Definitions -/

/-- Lines and raw text are modelled as lists of characters. -/
abbrev Line := List Char

/-- Go regexp's `\s` character class: `[\t\n\f\r ]`. -/
def goSpace (c : Char) : Bool :=
  c = ' ' || c = '\t' || c = '\n' || c = '\x0c' || c = '\r'

/-- Go regexp's `\d` character class `[0-9]`. -/
def goDigit (c : Char) : Bool :=
  c.isDigit

/-- `bufio.ScanLines` drops one trailing carriage return of each line. -/
def dropCR (l : Line) : Line :=
  if l.getLast? = some '\r' then l.dropLast else l

/-- Accumulator loop for `splitLines`; `acc` holds the current line reversed. -/
def splitLinesAux : Line → List Char → List Line
  | acc, [] => if acc = [] then [] else [dropCR acc.reverse]
  | acc, c :: rest =>
    if c = '\n' then dropCR acc.reverse :: splitLinesAux [] rest
    else splitLinesAux (c :: acc) rest

/-- The sequence of lines produced by `bufio.Scanner` with `ScanLines`:
newline-separated, a trailing newline produces no final empty line, the
empty input produces no lines. -/
def splitLines (s : List Char) : List Line :=
  splitLinesAux [] s

/-- Errors of the parser.  `parseHeader` is `errParseHeader`, `missingData`
is `errMissingData(tag)`, and the two `int` errors are the syntax and range
errors of `strconv.ParseInt`. -/
inductive PfError
  | parseHeader
  | missingData (tag : Line)
  | intSyntaxErr (s : Line)
  | intRangeErr (s : Line)
deriving DecidableEq, Repr

/-- Numeric value of a list of decimal digit characters. -/
def digitsToNat (ds : Line) : Nat :=
  ds.foldl (fun n c => 10 * n + (c.toNat - '0'.toNat)) 0

/-- Digits-and-range part of `strconv.ParseInt(s, 10, 64)`. -/
def parseIntCore (orig : Line) (neg : Bool) (ds : Line) : Except PfError Int :=
  if ds = [] then .error (.intSyntaxErr orig)
  else if ds.all goDigit then
    if neg then
      if digitsToNat ds ≤ 2 ^ 63 then .ok (-(digitsToNat ds : Int))
      else .error (.intRangeErr orig)
    else
      if digitsToNat ds ≤ 2 ^ 63 - 1 then .ok (digitsToNat ds : Int)
      else .error (.intRangeErr orig)
  else .error (.intSyntaxErr orig)

/-- Model of `strconv.ParseInt(s, 10, 64)`: optional sign, then base-10
digits, checked against the signed 64-bit range. -/
def parseInt64 : Line → Except PfError Int
  | [] => .error (.intSyntaxErr [])
  | c :: t =>
    if c = '-' then parseIntCore (c :: t) true t
    else if c = '+' then parseIntCore (c :: t) false t
    else parseIntCore (c :: t) false (c :: t)

/-- Model of `anyTableHeaderRE = ^[A-Z]`. -/
def anyTableHeader (l : Line) : Bool :=
  match l with
  | [] => false
  | c :: _ => 'A' ≤ c && c ≤ 'Z'

/-- Model of `packetsRE = ^(\s+Packets In|\s+Packets Out)`; returns capture
group 1.  The greedy `\s+` forces the maximal leading whitespace run (a
shorter run would leave a whitespace character where the literal expects
`P`), after which the literal must follow directly. -/
def packetsMatch (l : Line) : Option Line :=
  if l.takeWhile goSpace = [] then none
  else if "Packets In".data.isPrefixOf (l.dropWhile goSpace) then
    some (l.takeWhile goSpace ++ "Packets In".data)
  else if "Packets Out".data.isPrefixOf (l.dropWhile goSpace) then
    some (l.takeWhile goSpace ++ "Packets Out".data)
  else none

/-- Matcher for `\s+(\d+)\s+(\d+)` anchored at the start of `l`, returning
the two digit captures.  Each greedy run is forced: shortening a `\s+` run
leaves a whitespace character where a digit is required and shortening a
`\d+` run leaves a digit where whitespace is required, so no backtracking
can turn a failure into a success or alter the captures. -/
def twoIntTail (l : Line) : Option (Line × Line) :=
  if l.takeWhile goSpace = [] then none
  else if (l.dropWhile goSpace).takeWhile goDigit = [] then none
  else if ((l.dropWhile goSpace).dropWhile goDigit).takeWhile goSpace = [] then none
  else if (((l.dropWhile goSpace).dropWhile goDigit).dropWhile goSpace).takeWhile goDigit
      = [] then none
  else some ((l.dropWhile goSpace).takeWhile goDigit,
    (((l.dropWhile goSpace).dropWhile goDigit).dropWhile goSpace).takeWhile goDigit)

/-- Matcher for `\s+(\d+)` anchored at the start of `l`; same forcing
argument as `twoIntTail`. -/
def oneIntTail (l : Line) : Option Line :=
  if l.takeWhile goSpace = [] then none
  else if (l.dropWhile goSpace).takeWhile goDigit = [] then none
  else some ((l.dropWhile goSpace).takeWhile goDigit)

/-- Model of `bytesRE = ^(\s+Bytes In|\s+Bytes Out)\s+(\d+)\s+(\d+)`;
returns (group 1, group 2, group 3).  As in `packetsMatch` the leading
`\s+` is forced maximal and the two alternatives are mutually exclusive. -/
def bytesMatch (l : Line) : Option (Line × Line × Line) :=
  if l.takeWhile goSpace = [] then none
  else if "Bytes In".data.isPrefixOf (l.dropWhile goSpace) then
    match twoIntTail ((l.dropWhile goSpace).drop "Bytes In".data.length) with
    | some (d1, d2) => some (l.takeWhile goSpace ++ "Bytes In".data, d1, d2)
    | none => none
  else if "Bytes Out".data.isPrefixOf (l.dropWhile goSpace) then
    match twoIntTail ((l.dropWhile goSpace).drop "Bytes Out".data.length) with
    | some (d1, d2) => some (l.takeWhile goSpace ++ "Bytes Out".data, d1, d2)
    | none => none
  else none

/-- Lazy search for `(.*?)\s+(\d+)\s+(\d+)`: positions are tried shortest
label first; `acc` holds the label consumed so far, reversed.  `.` does not
match a newline, which aborts the search. -/
def ipvSearch : Line → Line → Option (Line × Line × Line)
  | _, [] => none
  | acc, c :: cs =>
    match twoIntTail (c :: cs) with
    | some (d1, d2) => some (acc.reverse, d1, d2)
    | none => if c = '\n' then none else ipvSearch (c :: acc) cs

/-- Backtracking over the length of the leading `\s+` run: the greedy run
tries `k` characters first, then `k - 1`, ..., down to 1. -/
def ipvTryWs : Nat → Line → Option (Line × Line × Line)
  | 0, _ => none
  | k + 1, l =>
    match ipvSearch [] (l.drop (k + 1)) with
    | some r => some r
    | none => ipvTryWs k l

/-- Model of `IPvRE = ^\s+(.*?)\s+(\d+)\s+(\d+)`; returns
(group 1, group 2, group 3) under leftmost-first semantics. -/
def IPvMatch (l : Line) : Option (Line × Line × Line) :=
  ipvTryWs (l.takeWhile goSpace).length l

/-- Lazy search for `(.*?)\s+(\d+)`, as in `ipvSearch`. -/
def taggedSearch : Line → Line → Option (Line × Line)
  | _, [] => none
  | acc, c :: cs =>
    match oneIntTail (c :: cs) with
    | some d => some (acc.reverse, d)
    | none => if c = '\n' then none else taggedSearch (c :: acc) cs

/-- Whitespace-length backtracking for `taggedMatch`, as in `ipvTryWs`. -/
def taggedTryWs : Nat → Line → Option (Line × Line)
  | 0, _ => none
  | k + 1, l =>
    match taggedSearch [] (l.drop (k + 1)) with
    | some r => some r
    | none => taggedTryWs k l

/-- Model of `^\s+(.*?)\s+(\d+)`, the shared shape of `interfaceTableRE`,
`stateTableRE` and `counterTableRE`; returns (label capture, digit capture)
under leftmost-first semantics. -/
def taggedMatch (l : Line) : Option (Line × Line) :=
  taggedTryWs (l.takeWhile goSpace).length l

/-- Model of the `Entry` struct: output key, pfctl label, value slot. -/
structure Entry where
  field : Line
  pfctlTitle : Line
  value : Int
deriving DecidableEq, Repr

/-- Model of the `InterfaceTable` package variable. -/
def InterfaceTable : List Entry :=
  [⟨"bytes4-in".data, "Bytes In IPv4".data, -1⟩,
   ⟨"bytes4-out".data, "Bytes Out IPv4".data, -1⟩,
   ⟨"bytes6-in".data, "Bytes In IPv6".data, -1⟩,
   ⟨"bytes6-out".data, "Bytes Out IPv6".data, -1⟩,
   ⟨"packets4-in-passed".data, "Packets In Passed IPv4".data, -1⟩,
   ⟨"packets4-in-blocked".data, "Packets In Blocked IPv4".data, -1⟩,
   ⟨"packets4-out-passed".data, "Packets Out Passed IPv4".data, -1⟩,
   ⟨"packets4-out-blocked".data, "Packets Out Blocked IPv4".data, -1⟩,
   ⟨"packets6-in-passed".data, "Packets In Passed IPv6".data, -1⟩,
   ⟨"packets6-in-blocked".data, "Packets In Blocked IPv6".data, -1⟩,
   ⟨"packets6-out-passed".data, "Packets Out Passed IPv6".data, -1⟩,
   ⟨"packets6-out-blocked".data, "Packets Out Blocked IPv6".data, -1⟩]

/-- Model of the `StateTable` package variable. -/
def StateTable : List Entry :=
  [⟨"entries".data, "current entries".data, -1⟩,
   ⟨"searches".data, "searches".data, -1⟩,
   ⟨"inserts".data, "inserts".data, -1⟩,
   ⟨"removals".data, "removals".data, -1⟩]

/-- Model of the `CounterTable` package variable. -/
def CounterTable : List Entry :=
  [⟨"match".data, "match".data, -1⟩,
   ⟨"bad-offset".data, "bad-offset".data, -1⟩,
   ⟨"fragment".data, "fragment".data, -1⟩,
   ⟨"short".data, "short".data, -1⟩,
   ⟨"normalize".data, "normalize".data, -1⟩,
   ⟨"memory".data, "memory".data, -1⟩,
   ⟨"bad-timestamp".data, "bad-timestamp".data, -1⟩,
   ⟨"congestion".data, "congestion".data, -1⟩,
   ⟨"ip-option".data, "ip-option".data, -1⟩,
   ⟨"proto-cksum".data, "proto-cksum".data, -1⟩,
   ⟨"state-mismatch".data, "state-mismatch".data, -1⟩,
   ⟨"state-insert".data, "state-insert".data, -1⟩,
   ⟨"state-limit".data, "state-limit".data, -1⟩,
   ⟨"src-limit".data, "src-limit".data, -1⟩,
   ⟨"synproxy".data, "synproxy".data, -1⟩]

/-- The output map `map[string]interface{}`, as an insertion-ordered
association list with Go-map update semantics. -/
abbrev Fields := List (Line × Int)

/-- `fields[k] = v`: replace an existing binding or append a new one. -/
def setField : Fields → Line → Int → Fields
  | [], k, v => [(k, v)]
  | (k', v') :: rest, k, v =>
    if k' = k then (k, v) :: rest else (k', v') :: setField rest k v

/-- Map lookup. -/
def lookupField : Fields → Line → Option Int
  | [], _ => none
  | (k', v) :: rest, k => if k' = k then some v else lookupField rest k

/-- Inner loop of `storeFieldValues`: for one matched line, assign the
parsed value to every entry whose title equals the label capture; a
`ParseInt` failure aborts. -/
def updateEntries (lbl ds : Line) : List Entry → Except PfError (List Entry)
  | [] => .ok []
  | e :: es =>
    if e.pfctlTitle = lbl then
      match parseInt64 ds with
      | .error err => .error err
      | .ok v =>
        match updateEntries lbl ds es with
        | .error err => .error err
        | .ok es' => .ok ({ e with value := v } :: es')
    else
      match updateEntries lbl ds es with
      | .error err => .error err
      | .ok es' => .ok (e :: es')

/-- First phase of `storeFieldValues`: match every line against the generic
label-integer pattern and fill the value slots. -/
def scanStanzaLines : List Line → List Entry → Except PfError (List Entry)
  | [], table => .ok table
  | l :: ls, table =>
    match taggedMatch l with
    | none => scanStanzaLines ls table
    | some (lbl, ds) =>
      match updateEntries lbl ds table with
      | .error e => .error e
      | .ok t => scanStanzaLines ls t

/-- Second phase of `storeFieldValues`: any slot still at the sentinel -1
is a missing-data error; otherwise copy every value into the shared map. -/
def emitFields : List Entry → Fields → Except PfError Fields
  | [], fields => .ok fields
  | e :: es, fields =>
    if e.value = -1 then .error (.missingData e.pfctlTitle)
    else emitFields es (setField fields e.field e.value)

/-- Model of `storeFieldValues(lines, regex, fields, entryTable)`; returns
the updated entry table and the updated field map. -/
def storeFieldValues (lines : List Line) (table : List Entry) (fields : Fields) :
    Except PfError (List Entry × Fields) :=
  match scanStanzaLines lines table with
  | .error e => .error e
  | .ok t =>
    match emitFields t fields with
    | .error e => .error e
    | .ok f => .ok (t, f)

/-- The three stanzas of `pfctlOutputStanzas`, in slice order. -/
inductive StanzaId
  | iface
  | stateTbl
  | counters
deriving DecidableEq, Repr

/-- The `HeaderRE` of each stanza (`^Interface Stats`, `^State Table`,
`^Counters`): anchored literal prefix. -/
def stanzaHeader : StanzaId → Line
  | .iface => "Interface Stats".data
  | .stateTbl => "State Table".data
  | .counters => "Counters".data

/-- The `Optional` flag of each stanza: only Interface Stats is optional. -/
def stanzaOptionalFlag : StanzaId → Bool
  | .iface => true
  | .stateTbl => false
  | .counters => false

/-- The package-level mutable state: the three `Found` flags and the three
entry tables with their `Value` slots. -/
structure SpecState where
  ifaceFound : Bool
  stateFound : Bool
  countersFound : Bool
  ifaceTable : List Entry
  stateTable : List Entry
  counterTable : List Entry
deriving DecidableEq, Repr

/-- The state the Go package starts in: no stanza found, every value slot
at the sentinel -1. -/
def freshSpecState : SpecState :=
  ⟨false, false, false, InterfaceTable, StateTable, CounterTable⟩

/-- The entry table a stanza's `ParseFunc` operates on. -/
def stanzaTable (sid : StanzaId) (st : SpecState) : List Entry :=
  match sid with
  | .iface => st.ifaceTable
  | .stateTbl => st.stateTable
  | .counters => st.counterTable

/-- The `Found` flag of a stanza. -/
def stanzaFoundFlag (sid : StanzaId) (st : SpecState) : Bool :=
  match sid with
  | .iface => st.ifaceFound
  | .stateTbl => st.stateFound
  | .counters => st.countersFound

/-- Store a stanza's updated table and set its `Found` flag. -/
def setStanza (sid : StanzaId) (st : SpecState) (t : List Entry) : SpecState :=
  match sid with
  | .iface => { st with ifaceTable := t, ifaceFound := true }
  | .stateTbl => { st with stateTable := t, stateFound := true }
  | .counters => { st with counterTable := t, countersFound := true }

/-- The two synthetic lines injected for one Passed/Blocked sub-line of a
Packets In/Out block: `fmt.Sprintf("%s %s IPv4 %s", ...)` and the IPv6
variant; a sub-line that does not match `IPvRE` is silently skipped. -/
def packetsExpand (pfx : Line) (l : Line) : List Line :=
  match IPvMatch l with
  | some (lbl, d4, d6) =>
    [pfx ++ " ".data ++ lbl ++ " IPv4 ".data ++ d4,
     pfx ++ " ".data ++ lbl ++ " IPv6 ".data ++ d6]
  | none => []

/-- The transform applied to one non-packets line before appending it to the
stanza buffer: a `Bytes In/Out` match is split into its two synthetic
IPv4/IPv6 lines, every other line is kept verbatim. -/
def lineTransform (line : Line) : List Line :=
  match bytesMatch line with
  | some (pfx, d4, d6) => [pfx ++ " IPv4 ".data ++ d4, pfx ++ " IPv6 ".data ++ d6]
  | none => [line]

/-- The stanza-collection loop of `parsePfctlOutput`: starting from the
current line, collect transformed lines until a line matching `^[A-Z]` (the
universal stanza terminator) or the end of input.  Returns the collected
lines, the line variable's final value and the remaining lines.  A
`Packets In/Out` line consumes the next two lines (if present) and injects
the expansions of those that match `IPvRE`; every other line goes through
`lineTransform`. -/
def collect : Line → List Line → List Line → List Line × Line × List Line
  | line, [], acc =>
    if anyTableHeader line then (acc, line, [])
    else
      match packetsMatch line with
      | some _ => (acc, line, [])
      | none => (acc ++ lineTransform line, line, [])
  | line, [a], acc =>
    if anyTableHeader line then (acc, line, [a])
    else
      match packetsMatch line with
      | some pfx => (acc ++ packetsExpand pfx a, a, [])
      | none => collect a [] (acc ++ lineTransform line)
  | line, [a, b], acc =>
    if anyTableHeader line then (acc, line, [a, b])
    else
      match packetsMatch line with
      | some pfx => (acc ++ packetsExpand pfx a ++ packetsExpand pfx b, b, [])
      | none => collect a [b] (acc ++ lineTransform line)
  | line, a :: b :: r :: rs', acc =>
    if anyTableHeader line then (acc, line, a :: b :: r :: rs')
    else
      match packetsMatch line with
      | some pfx => collect r rs' (acc ++ packetsExpand pfx a ++ packetsExpand pfx b)
      | none => collect a (b :: r :: rs') (acc ++ lineTransform line)

/-- Entry into collection mode after a header match: the scanner advances
one line (the line variable becomes empty if the input is exhausted, since
`Text()` returns the empty string after a failed `Scan`). -/
def collectStanza : List Line → List Line × Line × List Line
  | [] => collect [] [] []
  | l :: ls => collect l ls []

/-- One stanza check of the inner `for _, s := range pfctlOutputStanzas`
loop: on a header match, collect the stanza, run its `ParseFunc`
(propagating errors) and set the `Found` flag. -/
def stanzaStep (sid : StanzaId) (st : SpecState) (fields : Fields) (line : Line)
    (rest : List Line) : Except PfError (SpecState × Fields × Line × List Line) :=
  if (stanzaHeader sid).isPrefixOf line then
    match storeFieldValues (collectStanza rest).1 (stanzaTable sid st) fields with
    | .error e => .error e
    | .ok (t, f) =>
      .ok (setStanza sid st t, f, (collectStanza rest).2.1, (collectStanza rest).2.2)
  else .ok (st, fields, line, rest)

/-- The inner loop over the stanza slice: each stanza is checked once, in
slice order, against the current value of the line variable. -/
def runStanzaList : List StanzaId → SpecState → Fields → Line → List Line →
    Except PfError (SpecState × Fields × Line × List Line)
  | [], st, fields, line, rest => .ok (st, fields, line, rest)
  | sid :: sids, st, fields, line, rest =>
    match stanzaStep sid st fields line rest with
    | .error e => .error e
    | .ok (st', f', line', rest') => runStanzaList sids st' f' line' rest'

/-- The stanza slice `pfctlOutputStanzas`, in order. -/
def stanzaIds : List StanzaId := [.iface, .stateTbl, .counters]

/-- The outer `for scanner.Scan()` loop, with an explicit structural fuel:
read a line, run the stanza checks (which may consume further lines),
repeat; the line variable's final value after the inner loop is discarded.
Each iteration consumes at least one line, so any fuel exceeding the number
of remaining lines is enough (`scanLoopFuel_irrel`); the zero-fuel branch
is never reached from `scanLoop`. -/
def scanLoopFuel : Nat → SpecState → Fields → List Line →
    Except PfError (SpecState × Fields)
  | 0, st, fields, _ => .ok (st, fields)
  | _ + 1, st, fields, [] => .ok (st, fields)
  | n + 1, st, fields, line :: rest' =>
    match runStanzaList stanzaIds st fields line rest' with
    | .error e => .error e
    | .ok (st', f', _, rest'') => scanLoopFuel n st' f' rest''

/-- The outer scanner loop of `parsePfctlOutput`. -/
def scanLoop (st : SpecState) (fields : Fields) (rest : List Line) :
    Except PfError (SpecState × Fields) :=
  scanLoopFuel (rest.length + 1) st fields rest

/-- A nonempty all-digit character run, the shape captured by a `(\d+)`
group. -/
def DigitPayload (l : Line) : Prop :=
  l ≠ [] ∧ ∀ c ∈ l, goDigit c = true

instance (l : Line) : Decidable (DigitPayload l) := by
  unfold DigitPayload
  infer_instance

def suffixOk : Line → Bool
  | [] => true
  | c :: t =>
    if goSpace c then
      match (c :: t).dropWhile goSpace with
      | [] => false
      | c' :: _ => !goDigit c'
    else true

/-- The final completeness check: every non-optional stanza must have been
found, otherwise `errParseHeader`. -/
def checkFound : List StanzaId → SpecState → Option PfError
  | [], _ => none
  | sid :: sids, st =>
    if stanzaOptionalFlag sid then checkFound sids st
    else if stanzaFoundFlag sid st then checkFound sids st
    else some .parseHeader

/-- Model of `(*PF).parsePfctlOutput`: split the input into lines, run the
scanner, check completeness; on success return the final spec state and the
field map handed to `acc.AddFields`. -/
def parsePfctlOutput (st : SpecState) (input : List Char) :
    Except PfError (SpecState × Fields) :=
  match scanLoop st [] (splitLines input) with
  | .error e => .error e
  | .ok (st', fields) =>
    match checkFound stanzaIds st' with
    | some e => .error e
    | none => .ok (st', fields)

/-- The `measurement` constant. -/
def measurement : Line := "pf".data

/-- The sink boundary: the list of `AddFields(measurement, fields)` calls
made during one parse, paired with the returned error.  `AddFields` is
called exactly once, at the very end, and only when no error occurred. -/
def gatherParse (st : SpecState) (input : List Char) :
    List (Line × Fields) × Option PfError :=
  match parsePfctlOutput st input with
  | .ok (_, fields) => ([(measurement, fields)], none)
  | .error e => ([], some e)

/-- Decidable form of "nonempty with non-whitespace head". -/
def labelHeadOk (l : Line) : Bool :=
  match l with
  | [] => false
  | c :: _ => !goSpace c

/-- A generic labelled data line `"  <lbl> <digits>"`. -/
def tagLine (lbl : String) (d : Line) : Line :=
  "  ".data ++ (lbl.data ++ (" ".data ++ d))

/-- `"  Bytes In <v4> <v6>"`. -/
def bytesInLine (d4 d6 : Line) : Line :=
  "  ".data ++ ("Bytes In".data ++ (" ".data ++ (d4 ++ (" ".data ++ d6))))

/-- `"  Bytes Out <v4> <v6>"`. -/
def bytesOutLine (d4 d6 : Line) : Line :=
  "  ".data ++ ("Bytes Out".data ++ (" ".data ++ (d4 ++ (" ".data ++ d6))))

/-- `"    Passed <v4> <v6>"`. -/
def passedLine (d4 d6 : Line) : Line :=
  "    ".data ++ ("Passed".data ++ (" ".data ++ (d4 ++ (" ".data ++ d6))))

/-- `"    Blocked <v4> <v6>"`. -/
def blockedLine (d4 d6 : Line) : Line :=
  "    ".data ++ ("Blocked".data ++ (" ".data ++ (d4 ++ (" ".data ++ d6))))

def packetsInLine : Line := "  Packets In".data

def packetsOutLine : Line := "  Packets Out".data

def ifaceHeaderLine : Line := "Interface Stats for em0".data

def stateHeaderLine : Line := "State Table".data

def countersHeaderLine : Line := "Counters".data

/-- The sample document, parameterized by its 31 numeric columns: indices
0-11 are the interface stanza values in document order (Bytes In v4/v6,
Bytes Out v4/v6, Packets In Passed v4/v6, Packets In Blocked v4/v6,
Packets Out Passed v4/v6, Packets Out Blocked v4/v6), 12-15 the state
table, 16-30 the counters. -/
def sampleLines (d : Nat → Line) : List Line :=
  [ifaceHeaderLine,
   bytesInLine (d 0) (d 1),
   bytesOutLine (d 2) (d 3),
   packetsInLine,
   passedLine (d 4) (d 5),
   blockedLine (d 6) (d 7),
   packetsOutLine,
   passedLine (d 8) (d 9),
   blockedLine (d 10) (d 11),
   stateHeaderLine,
   tagLine "current entries" (d 12),
   tagLine "searches" (d 13),
   tagLine "inserts" (d 14),
   tagLine "removals" (d 15),
   countersHeaderLine,
   tagLine "match" (d 16),
   tagLine "bad-offset" (d 17),
   tagLine "fragment" (d 18),
   tagLine "short" (d 19),
   tagLine "normalize" (d 20),
   tagLine "memory" (d 21),
   tagLine "bad-timestamp" (d 22),
   tagLine "congestion" (d 23),
   tagLine "ip-option" (d 24),
   tagLine "proto-cksum" (d 25),
   tagLine "state-mismatch" (d 26),
   tagLine "state-insert" (d 27),
   tagLine "state-limit" (d 28),
   tagLine "src-limit" (d 29),
   tagLine "synproxy" (d 30)]

/-- The synthetic lines collected for the interface stanza. -/
def ifaceStanzaLines (d : Nat → Line) : List Line :=
  ["  Bytes In".data ++ " IPv4 ".data ++ d 0,
   "  Bytes In".data ++ " IPv6 ".data ++ d 1,
   "  Bytes Out".data ++ " IPv4 ".data ++ d 2,
   "  Bytes Out".data ++ " IPv6 ".data ++ d 3,
   "  Packets In".data ++ " ".data ++ "Passed".data ++ " IPv4 ".data ++ d 4,
   "  Packets In".data ++ " ".data ++ "Passed".data ++ " IPv6 ".data ++ d 5,
   "  Packets In".data ++ " ".data ++ "Blocked".data ++ " IPv4 ".data ++ d 6,
   "  Packets In".data ++ " ".data ++ "Blocked".data ++ " IPv6 ".data ++ d 7,
   "  Packets Out".data ++ " ".data ++ "Passed".data ++ " IPv4 ".data ++ d 8,
   "  Packets Out".data ++ " ".data ++ "Passed".data ++ " IPv6 ".data ++ d 9,
   "  Packets Out".data ++ " ".data ++ "Blocked".data ++ " IPv4 ".data ++ d 10,
   "  Packets Out".data ++ " ".data ++ "Blocked".data ++ " IPv6 ".data ++ d 11]

/-- The verbatim lines collected for the state-table stanza. -/
def stateStanzaLines (d : Nat → Line) : List Line :=
  [tagLine "current entries" (d 12), tagLine "searches" (d 13),
   tagLine "inserts" (d 14), tagLine "removals" (d 15)]

/-- The verbatim lines collected for the counters stanza. -/
def counterStanzaLines (d : Nat → Line) : List Line :=
  [tagLine "match" (d 16), tagLine "bad-offset" (d 17), tagLine "fragment" (d 18),
   tagLine "short" (d 19), tagLine "normalize" (d 20), tagLine "memory" (d 21),
   tagLine "bad-timestamp" (d 22), tagLine "congestion" (d 23),
   tagLine "ip-option" (d 24), tagLine "proto-cksum" (d 25),
   tagLine "state-mismatch" (d 26), tagLine "state-insert" (d 27),
   tagLine "state-limit" (d 28), tagLine "src-limit" (d 29),
   tagLine "synproxy" (d 30)]

/-- The interface table after a successful scan of the sample, value slots
filled in table order from the document values. -/
def ifaceTableFilled (v : Nat → Int) : List Entry :=
  [⟨"bytes4-in".data, "Bytes In IPv4".data, v 0⟩,
   ⟨"bytes4-out".data, "Bytes Out IPv4".data, v 2⟩,
   ⟨"bytes6-in".data, "Bytes In IPv6".data, v 1⟩,
   ⟨"bytes6-out".data, "Bytes Out IPv6".data, v 3⟩,
   ⟨"packets4-in-passed".data, "Packets In Passed IPv4".data, v 4⟩,
   ⟨"packets4-in-blocked".data, "Packets In Blocked IPv4".data, v 6⟩,
   ⟨"packets4-out-passed".data, "Packets Out Passed IPv4".data, v 8⟩,
   ⟨"packets4-out-blocked".data, "Packets Out Blocked IPv4".data, v 10⟩,
   ⟨"packets6-in-passed".data, "Packets In Passed IPv6".data, v 5⟩,
   ⟨"packets6-in-blocked".data, "Packets In Blocked IPv6".data, v 7⟩,
   ⟨"packets6-out-passed".data, "Packets Out Passed IPv6".data, v 9⟩,
   ⟨"packets6-out-blocked".data, "Packets Out Blocked IPv6".data, v 11⟩]

/-- The state table after a successful scan of the sample. -/
def stateTableFilled (v : Nat → Int) : List Entry :=
  [⟨"entries".data, "current entries".data, v 12⟩,
   ⟨"searches".data, "searches".data, v 13⟩,
   ⟨"inserts".data, "inserts".data, v 14⟩,
   ⟨"removals".data, "removals".data, v 15⟩]

/-- The counter table after a successful scan of the sample. -/
def counterTableFilled (v : Nat → Int) : List Entry :=
  [⟨"match".data, "match".data, v 16⟩,
   ⟨"bad-offset".data, "bad-offset".data, v 17⟩,
   ⟨"fragment".data, "fragment".data, v 18⟩,
   ⟨"short".data, "short".data, v 19⟩,
   ⟨"normalize".data, "normalize".data, v 20⟩,
   ⟨"memory".data, "memory".data, v 21⟩,
   ⟨"bad-timestamp".data, "bad-timestamp".data, v 22⟩,
   ⟨"congestion".data, "congestion".data, v 23⟩,
   ⟨"ip-option".data, "ip-option".data, v 24⟩,
   ⟨"proto-cksum".data, "proto-cksum".data, v 25⟩,
   ⟨"state-mismatch".data, "state-mismatch".data, v 26⟩,
   ⟨"state-insert".data, "state-insert".data, v 27⟩,
   ⟨"state-limit".data, "state-limit".data, v 28⟩,
   ⟨"src-limit".data, "src-limit".data, v 29⟩,
   ⟨"synproxy".data, "synproxy".data, v 30⟩]

/-- The twelve interface fields, in entry-table emission order. -/
def ifaceFields (v : Nat → Int) : Fields :=
  [("bytes4-in".data, v 0), ("bytes4-out".data, v 2),
   ("bytes6-in".data, v 1), ("bytes6-out".data, v 3),
   ("packets4-in-passed".data, v 4), ("packets4-in-blocked".data, v 6),
   ("packets4-out-passed".data, v 8), ("packets4-out-blocked".data, v 10),
   ("packets6-in-passed".data, v 5), ("packets6-in-blocked".data, v 7),
   ("packets6-out-passed".data, v 9), ("packets6-out-blocked".data, v 11)]

/-- The four state-table fields. -/
def stateFields (v : Nat → Int) : Fields :=
  [("entries".data, v 12), ("searches".data, v 13),
   ("inserts".data, v 14), ("removals".data, v 15)]

/-- The fifteen counter fields. -/
def counterFields (v : Nat → Int) : Fields :=
  [("match".data, v 16), ("bad-offset".data, v 17), ("fragment".data, v 18),
   ("short".data, v 19), ("normalize".data, v 20), ("memory".data, v 21),
   ("bad-timestamp".data, v 22), ("congestion".data, v 23),
   ("ip-option".data, v 24), ("proto-cksum".data, v 25),
   ("state-mismatch".data, v 26), ("state-insert".data, v 27),
   ("state-limit".data, v 28), ("src-limit".data, v 29),
   ("synproxy".data, v 30)]

/-- The key-value pairs a table contributes to the output map. -/
def entryFields (t : List Entry) : Fields :=
  t.map fun e => (e.field, e.value)

/-- Newline-terminated concatenation: the raw text of a command whose every
output line ends in a newline. -/
def nlJoin (ls : List Line) : List Char :=
  ls.foldr (fun l acc => l ++ '\n' :: acc) []

/-- No newline inside a line. -/
def NoNL (l : Line) : Prop := ∀ c ∈ l, ¬(c = '\n')

instance (l : Line) : Decidable (NoNL l) := by
  unfold NoNL
  infer_instance

/-- The raw sample text: every line newline-terminated, as in real command
output. -/
def sampleText (d : Nat → Line) : List Char :=
  nlJoin (sampleLines d)

/-- The lines of the sample following the state-table header. -/
def stateTail (d : Nat → Line) : List Line :=
  tagLine "current entries" (d 12) :: tagLine "searches" (d 13) ::
    tagLine "inserts" (d 14) :: tagLine "removals" (d 15) ::
    countersHeaderLine :: counterTail d
where
  /-- The lines of the sample following the counters header. -/
  counterTail (d : Nat → Line) : List Line :=
    [tagLine "match" (d 16), tagLine "bad-offset" (d 17), tagLine "fragment" (d 18),
     tagLine "short" (d 19), tagLine "normalize" (d 20), tagLine "memory" (d 21),
     tagLine "bad-timestamp" (d 22), tagLine "congestion" (d 23),
     tagLine "ip-option" (d 24), tagLine "proto-cksum" (d 25),
     tagLine "state-mismatch" (d 26), tagLine "state-insert" (d 27),
     tagLine "state-limit" (d 28), tagLine "src-limit" (d 29),
     tagLine "synproxy" (d 30)]

/-- Spec state after the interface stanza. -/
def stAfterIface (v : Nat → Int) : SpecState :=
  ⟨true, false, false, ifaceTableFilled v, StateTable, CounterTable⟩

/-- Spec state after the state-table stanza. -/
def stAfterState (v : Nat → Int) : SpecState :=
  ⟨true, true, false, ifaceTableFilled v, stateTableFilled v, CounterTable⟩

/-- Spec state after a successful full parse of the sample. -/
def finalState (v : Nat → Int) : SpecState :=
  ⟨true, true, true, ifaceTableFilled v, stateTableFilled v, counterTableFilled v⟩

/-- The full output map of a successful parse of the sample. -/
def allFields (v : Nat → Int) : Fields :=
  ifaceFields v ++ stateFields v ++ counterFields v

/-- The sample with the `State Table` header line deleted. -/
def sampleLinesNoState (d : Nat → Line) : List Line :=
  ifaceHeaderLine :: bytesInLine (d 0) (d 1) :: bytesOutLine (d 2) (d 3) ::
    packetsInLine :: passedLine (d 4) (d 5) :: blockedLine (d 6) (d 7) ::
    packetsOutLine :: passedLine (d 8) (d 9) :: blockedLine (d 10) (d 11) ::
    tagLine "current entries" (d 12) :: tagLine "searches" (d 13) ::
    tagLine "inserts" (d 14) :: tagLine "removals" (d 15) ::
    countersHeaderLine :: stateTail.counterTail d

/-- The sample with the `Interface Stats` header line deleted. -/
def sampleLinesNoIface (d : Nat → Line) : List Line :=
  bytesInLine (d 0) (d 1) :: bytesOutLine (d 2) (d 3) :: packetsInLine ::
    passedLine (d 4) (d 5) :: blockedLine (d 6) (d 7) :: packetsOutLine ::
    passedLine (d 8) (d 9) :: blockedLine (d 10) (d 11) :: stateHeaderLine ::
    stateTail d

/-- The sample with the `removals` line of the state stanza deleted. -/
def sampleLinesNoRemovals (d : Nat → Line) : List Line :=
  ifaceHeaderLine :: bytesInLine (d 0) (d 1) :: bytesOutLine (d 2) (d 3) ::
    packetsInLine :: passedLine (d 4) (d 5) :: blockedLine (d 6) (d 7) ::
    packetsOutLine :: passedLine (d 8) (d 9) :: blockedLine (d 10) (d 11) ::
    stateHeaderLine :: tagLine "current entries" (d 12) ::
    tagLine "searches" (d 13) :: tagLine "inserts" (d 14) ::
    countersHeaderLine :: stateTail.counterTail d

def sampleTextNoState (d : Nat → Line) : List Char := nlJoin (sampleLinesNoState d)

def sampleTextNoIface (d : Nat → Line) : List Char := nlJoin (sampleLinesNoIface d)

def sampleTextNoRemovals (d : Nat → Line) : List Char :=
  nlJoin (sampleLinesNoRemovals d)

/-- The state table scanned without a `removals` line: the `removals` slot
stays at the sentinel. -/
def stateTablePartial (v : Nat → Int) : List Entry :=
  [⟨"entries".data, "current entries".data, v 12⟩,
   ⟨"searches".data, "searches".data, v 13⟩,
   ⟨"inserts".data, "inserts".data, v 14⟩,
   ⟨"removals".data, "removals".data, -1⟩]

/-- Every value slot of a table is the sentinel or non-negative. -/
def ValuesOk (t : List Entry) : Prop :=
  ∀ e ∈ t, e.value = -1 ∨ 0 ≤ e.value

/-- Every value of a field map is non-negative. -/
def FieldsOk (f : Fields) : Prop :=
  ∀ p ∈ f, 0 ≤ p.2

/-- The three tables of a spec state are sentinel-or-non-negative. -/
def StateOk (st : SpecState) : Prop :=
  ValuesOk st.ifaceTable ∧ ValuesOk st.stateTable ∧ ValuesOk st.counterTable

/-- Equality of parse results is decidable, so concrete runs can be checked
by evaluation. -/
instance {ε α : Type} [DecidableEq ε] [DecidableEq α] : DecidableEq (Except ε α)
  | .ok a, .ok b =>
    if h : a = b then .isTrue (congrArg Except.ok h)
    else .isFalse fun he => h (Except.ok.inj he)
  | .error e1, .error e2 =>
    if h : e1 = e2 then .isTrue (congrArg Except.error h)
    else .isFalse fun he => h (Except.error.inj he)
  | .ok _, .error _ => .isFalse fun he => Except.noConfusion he
  | .error _, .ok _ => .isFalse fun he => Except.noConfusion he

/-- A complete three-stanza `pfctl -s info` output, with the literal
`Bytes In 100 200` / `Bytes Out 300 400` interface lines and the
`Passed 10 20` / `Blocked 30 40` packet sub-lines of the testable
properties. -/
def pfSample : String :=
"Interface Stats for em0\n  Bytes In    100    200\n  Bytes Out   300    400\n  Packets In\n    Passed    10    20\n    Blocked   30    40\n  Packets Out\n    Passed    50    60\n    Blocked   70    80\nState Table                        Total             Rate\n  current entries    2\n  searches    11325\n  inserts    5\n  removals    3\nCounters\n  match    11226\n  bad-offset    0\n  fragment    1\n  short    2\n  normalize    3\n  memory    4\n  bad-timestamp    5\n  congestion    6\n  ip-option    7\n  proto-cksum    8\n  state-mismatch    9\n  state-insert    10\n  state-limit    11\n  src-limit    12\n  synproxy    13\n"

/-- `pfSample` with the first packet sub-line (`Passed ...`) replaced by a
line that does not carry the dual-integer sub-count format. -/
def c8Sample : String :=
"Interface Stats for em0\n  Bytes In    100    200\n  Bytes Out   300    400\n  Packets In\n    garbage\n    Blocked   30    40\n  Packets Out\n    Passed    50    60\n    Blocked   70    80\nState Table                        Total             Rate\n  current entries    2\n  searches    11325\n  inserts    5\n  removals    3\nCounters\n  match    11226\n  bad-offset    0\n  fragment    1\n  short    2\n  normalize    3\n  memory    4\n  bad-timestamp    5\n  congestion    6\n  ip-option    7\n  proto-cksum    8\n  state-mismatch    9\n  state-insert    10\n  state-limit    11\n  src-limit    12\n  synproxy    13\n"

/-- Final state and field map of the (successful) parse of `pfSample`. -/
def pfRes : SpecState × Fields :=
  match parsePfctlOutput freshSpecState pfSample.data with
  | .ok r => r
  | .error _ => (freshSpecState, [])

/-! ## Theorems -/

theorem collect_rest_length (line : Line) (rest acc : List Line) :
    (collect line rest acc).2.2.length ≤ rest.length := by
  induction line, rest, acc using collect.induct with
  | case1 line acc h => simp [collect, h]
  | case2 line acc h d hp => simp [collect, h, hp]
  | case3 line acc h hp => simp [collect, h, hp]
  | case4 line a acc h => simp [collect, h]
  | case5 line a acc h d hp => simp [collect, h, hp]
  | case6 line a acc h hp ih =>
    rw [show collect line [a] acc = collect a [] (acc ++ lineTransform line) by
      simp [collect, h, hp]]
    exact le_trans ih (by simp)
  | case7 line a b acc h => simp [collect, h]
  | case8 line a b acc h d hp => simp [collect, h, hp]
  | case9 line a b acc h hp ih =>
    rw [show collect line [a, b] acc = collect a [b] (acc ++ lineTransform line) by
      simp [collect, h, hp]]
    exact le_trans ih (by simp)
  | case10 line a b r rs' acc h => simp [collect, h]
  | case11 line a b r rs' acc h d hp ih =>
    rw [show collect line (a :: b :: r :: rs') acc
        = collect r rs' (acc ++ packetsExpand d a ++ packetsExpand d b) by
      simp [collect, h, hp]]
    simp only [List.length_cons]
    exact le_trans ih (by omega)
  | case12 line a b r rs' acc h hp ih =>
    rw [show collect line (a :: b :: r :: rs') acc
        = collect a (b :: r :: rs') (acc ++ lineTransform line) by
      simp [collect, h, hp]]
    exact le_trans ih (by simp)

theorem collectStanza_rest_length (rest : List Line) :
    (collectStanza rest).2.2.length ≤ rest.length := by
  match rest with
  | [] => exact collect_rest_length [] [] []
  | l :: ls =>
    have h := collect_rest_length l ls []
    simp only [collectStanza]
    exact le_trans h (by simp)

theorem stanzaStep_rest_length (sid : StanzaId) (st : SpecState) (fields : Fields)
    (line : Line) (rest : List Line) (st' : SpecState) (f' : Fields) (line' : Line)
    (rest' : List Line)
    (h : stanzaStep sid st fields line rest = .ok (st', f', line', rest')) :
    rest'.length ≤ rest.length := by
  unfold stanzaStep at h
  by_cases hh : (stanzaHeader sid).isPrefixOf line = true
  · rw [if_pos hh] at h
    have hc := collectStanza_rest_length rest
    rcases hs : storeFieldValues (collectStanza rest).1 (stanzaTable sid st) fields
        with e | ⟨t, f⟩ <;> rw [hs] at h
    · simp at h
    · simp only [Except.ok.injEq, Prod.mk.injEq] at h
      obtain ⟨-, -, -, rfl⟩ := h
      exact hc
  · rw [if_neg hh] at h
    simp only [Except.ok.injEq, Prod.mk.injEq] at h
    obtain ⟨-, -, -, rfl⟩ := h
    exact le_refl _

theorem runStanzaList_rest_length (sids : List StanzaId) (st : SpecState)
    (fields : Fields) (line : Line) (rest : List Line) (st' : SpecState)
    (f' : Fields) (line' : Line) (rest' : List Line)
    (h : runStanzaList sids st fields line rest = .ok (st', f', line', rest')) :
    rest'.length ≤ rest.length := by
  induction sids generalizing st fields line rest with
  | nil =>
    simp only [runStanzaList, Except.ok.injEq, Prod.mk.injEq] at h
    obtain ⟨-, -, -, rfl⟩ := h
    exact le_refl _
  | cons sid sids ih =>
    simp only [runStanzaList] at h
    rcases hs : stanzaStep sid st fields line rest with e | ⟨st1, f1, line1, rest1⟩ <;>
      rw [hs] at h
    · exact absurd h (by simp)
    · exact le_trans (ih st1 f1 line1 rest1 h) (stanzaStep_rest_length _ _ _ _ _ _ _ _ _ hs)

theorem scanLoopFuel_irrel (n : Nat) : ∀ (m : Nat) (st : SpecState) (f : Fields)
    (rest : List Line), rest.length < n → rest.length < m →
    scanLoopFuel n st f rest = scanLoopFuel m st f rest := by
  induction n with
  | zero =>
    intro m st f rest h1 _
    exact absurd h1 (by omega)
  | succ n ih =>
    intro m st f rest h1 h2
    cases m with
    | zero => exact absurd h2 (by omega)
    | succ m =>
      cases rest with
      | nil => rfl
      | cons line rest' =>
        cases hr : runStanzaList stanzaIds st f line rest' with
        | error e => simp [scanLoopFuel, hr]
        | ok q =>
          obtain ⟨st', f', line', rest''⟩ := q
          have hle := runStanzaList_rest_length _ _ _ _ _ _ _ _ _ hr
          simp only [List.length_cons] at h1 h2
          simp only [scanLoopFuel, hr]
          exact ih m st' f' rest'' (by omega) (by omega)

theorem space_not_digit {c : Char} (h : goSpace c = true) : goDigit c = false := by
  unfold goSpace at h
  simp only [Bool.or_eq_true, decide_eq_true_eq] at h
  rcases h with (((h | h) | h) | h) | h <;> subst h <;> decide

theorem digit_not_space {c : Char} (h : goDigit c = true) : goSpace c = false := by
  cases hg : goSpace c
  · rfl
  · rw [space_not_digit hg] at h
    exact absurd h (by simp)

theorem digit_ne_nl {c : Char} (h : goDigit c = true) : ¬(c = '\n') := by
  intro he
  subst he
  exact absurd h (by decide)

theorem digit_ne_cr {c : Char} (h : goDigit c = true) : ¬(c = '\r') := by
  intro he
  subst he
  exact absurd h (by decide)

theorem takeWhile_app_of (p : Char → Bool) (xs ys : List Char)
    (hx : ∀ x ∈ xs, p x = true) (hy : ∀ c, ys.head? = some c → p c = false) :
    (xs ++ ys).takeWhile p = xs := by
  induction xs with
  | nil =>
    simp only [List.nil_append]
    cases ys with
    | nil => rfl
    | cons c cs => simp [List.takeWhile_cons, hy c rfl]
  | cons x xs ih =>
    have hpx : p x = true := hx x (by simp)
    simp only [List.cons_append, List.takeWhile_cons_of_pos hpx, List.cons.injEq, true_and]
    exact ih (fun a ha => hx a (by simp [ha]))

theorem dropWhile_app_of (p : Char → Bool) (xs ys : List Char)
    (hx : ∀ x ∈ xs, p x = true) (hy : ∀ c, ys.head? = some c → p c = false) :
    (xs ++ ys).dropWhile p = ys := by
  induction xs with
  | nil =>
    simp only [List.nil_append]
    cases ys with
    | nil => rfl
    | cons c cs => simp [List.dropWhile_cons, hy c rfl]
  | cons x xs ih =>
    have hpx : p x = true := hx x (by simp)
    simp only [List.cons_append, List.dropWhile_cons_of_pos hpx]
    exact ih (fun a ha => hx a (by simp [ha]))

theorem dropWhile_app_pos (p : Char → Bool) (t X : List Char) (c : Char) (r : List Char)
    (h : t.dropWhile p = c :: r) : (t ++ X).dropWhile p = c :: (r ++ X) := by
  induction t with
  | nil =>
    simp only [List.dropWhile_nil] at h
    cases h
  | cons a t ih =>
    by_cases hp : p a = true
    · simp only [List.dropWhile_cons_of_pos hp] at h
      simp only [List.cons_append, List.dropWhile_cons_of_pos hp]
      exact ih h
    · simp only [List.dropWhile_cons_of_neg (by simpa using hp)] at h
      obtain ⟨rfl, rfl⟩ := List.cons.injEq .. |>.mp h
      simp only [List.cons_append, List.dropWhile_cons_of_neg (by simpa using hp)]

theorem dp_head_not_space {d : Line} (hd : DigitPayload d) (z : List Char) :
    ∀ c, (d ++ z).head? = some c → goSpace c = false := by
  obtain ⟨hne, hall⟩ := hd
  cases d with
  | nil => exact absurd rfl hne
  | cons a t =>
    intro c hc
    simp only [List.cons_append, List.head?_cons, Option.some.injEq] at hc
    subst hc
    exact digit_not_space (hall a (by simp))

theorem dp_head_not_digit_gap {g : Line} (hg : g ≠ []) (hall : ∀ c ∈ g, goSpace c = true)
    (z : List Char) : ∀ c, (g ++ z).head? = some c → goDigit c = false := by
  cases g with
  | nil => exact absurd rfl hg
  | cons a t =>
    intro c hc
    simp only [List.cons_append, List.head?_cons, Option.some.injEq] at hc
    subst hc
    exact space_not_digit (hall a (by simp))

theorem dp_takeWhile_digit {d : Line} (hd : DigitPayload d) :
    d.takeWhile goDigit = d := by
  have := takeWhile_app_of goDigit d [] (fun x hx => hd.2 x hx) (by simp)
  simpa using this

theorem oneIntTail_gap_payload (g d : Line) (z : List Char)
    (hg : g ≠ []) (hgall : ∀ c ∈ g, goSpace c = true) (hd : DigitPayload d)
    (hz : ∀ c, z.head? = some c → goDigit c = false) :
    oneIntTail (g ++ (d ++ z)) = some d := by
  have htw : (g ++ (d ++ z)).takeWhile goSpace = g :=
    takeWhile_app_of goSpace g (d ++ z) hgall (dp_head_not_space hd z)
  have hdw : (g ++ (d ++ z)).dropWhile goSpace = d ++ z :=
    dropWhile_app_of goSpace g (d ++ z) hgall (dp_head_not_space hd z)
  have hdtw : (d ++ z).takeWhile goDigit = d :=
    takeWhile_app_of goDigit d z (fun x hx => hd.2 x hx) hz
  unfold oneIntTail
  rw [htw, hdw, hdtw]
  simp [hg, hd.1]

theorem twoIntTail_gap_payload (g1 d1 g2 d2 : Line)
    (hg1 : g1 ≠ []) (hg1all : ∀ c ∈ g1, goSpace c = true)
    (hd1 : DigitPayload d1)
    (hg2 : g2 ≠ []) (hg2all : ∀ c ∈ g2, goSpace c = true)
    (hd2 : DigitPayload d2) :
    twoIntTail (g1 ++ (d1 ++ (g2 ++ d2))) = some (d1, d2) := by
  have hz1 : ∀ c, (g2 ++ d2).head? = some c → goDigit c = false :=
    dp_head_not_digit_gap hg2 hg2all d2
  have htw : (g1 ++ (d1 ++ (g2 ++ d2))).takeWhile goSpace = g1 :=
    takeWhile_app_of goSpace g1 _ hg1all (dp_head_not_space hd1 _)
  have hdw : (g1 ++ (d1 ++ (g2 ++ d2))).dropWhile goSpace = d1 ++ (g2 ++ d2) :=
    dropWhile_app_of goSpace g1 _ hg1all (dp_head_not_space hd1 _)
  have htw1 : (d1 ++ (g2 ++ d2)).takeWhile goDigit = d1 :=
    takeWhile_app_of goDigit d1 _ (fun x hx => hd1.2 x hx) hz1
  have hdw1 : (d1 ++ (g2 ++ d2)).dropWhile goDigit = g2 ++ d2 :=
    dropWhile_app_of goDigit d1 _ (fun x hx => hd1.2 x hx) hz1
  have htw2 : (g2 ++ d2).takeWhile goSpace = g2 :=
    takeWhile_app_of goSpace g2 d2 hg2all
      (by simpa using dp_head_not_space hd2 [])
  have hdw2 : (g2 ++ d2).dropWhile goSpace = d2 :=
    dropWhile_app_of goSpace g2 d2 hg2all
      (by simpa using dp_head_not_space hd2 [])
  unfold twoIntTail
  rw [htw, hdw, htw1, hdw1, htw2, hdw2, dp_takeWhile_digit hd2]
  simp [hg1, hd1.1, hg2, hd2.1]

theorem oneIntTail_none_of_suffixOk (c : Char) (t X : List Char)
    (h : suffixOk (c :: t) = true) : oneIntTail (c :: (t ++ X)) = none := by
  by_cases hcs : goSpace c = true
  · simp only [suffixOk] at h
    rw [if_pos hcs] at h
    rcases hdw : (c :: t).dropWhile goSpace with _ | ⟨c', r'⟩
    · rw [hdw] at h
      exact absurd h (by simp)
    · rw [hdw] at h
      simp only [Bool.not_eq_eq_eq_not, Bool.not_true] at h
      have hda : ((c :: t) ++ X).dropWhile goSpace = c' :: (r' ++ X) :=
        dropWhile_app_pos goSpace (c :: t) X c' r' hdw
      simp only [List.cons_append] at hda
      unfold oneIntTail
      rw [hda, List.takeWhile_cons_of_pos hcs,
        List.takeWhile_cons_of_neg (by simp [h])]
      simp
  · unfold oneIntTail
    rw [List.takeWhile_cons_of_neg (by simpa using hcs)]
    simp

theorem twoIntTail_none_of_suffixOk (c : Char) (t X : List Char)
    (h : suffixOk (c :: t) = true) : twoIntTail (c :: (t ++ X)) = none := by
  by_cases hcs : goSpace c = true
  · simp only [suffixOk] at h
    rw [if_pos hcs] at h
    rcases hdw : (c :: t).dropWhile goSpace with _ | ⟨c', r'⟩
    · rw [hdw] at h
      exact absurd h (by simp)
    · rw [hdw] at h
      simp only [Bool.not_eq_eq_eq_not, Bool.not_true] at h
      have hda : ((c :: t) ++ X).dropWhile goSpace = c' :: (r' ++ X) :=
        dropWhile_app_pos goSpace (c :: t) X c' r' hdw
      simp only [List.cons_append] at hda
      unfold twoIntTail
      rw [hda, List.takeWhile_cons_of_pos hcs,
        List.takeWhile_cons_of_neg (by simp [h])]
      simp
  · unfold twoIntTail
    rw [List.takeWhile_cons_of_neg (by simpa using hcs)]
    simp

theorem taggedSearch_label (gap d : Line)
    (hgap : gap ≠ []) (hgall : ∀ c ∈ gap, goSpace c = true) (hd : DigitPayload d) :
    ∀ (lbl acc : Line), lbl.tails.all suffixOk = true → (∀ c ∈ lbl, ¬(c = '\n')) →
      taggedSearch acc (lbl ++ (gap ++ d)) = some (acc.reverse ++ lbl, d) := by
  intro lbl
  induction lbl with
  | nil =>
    intro acc _ _
    have h1 : oneIntTail (gap ++ (d ++ [])) = some d :=
      oneIntTail_gap_payload gap d [] hgap hgall hd (by simp)
    rw [List.append_nil] at h1
    obtain ⟨g0, g', rfl⟩ : ∃ g0 g', gap = g0 :: g' := by
      cases gap with
      | nil => exact absurd rfl hgap
      | cons a t => exact ⟨a, t, rfl⟩
    simp only [List.nil_append, List.cons_append] at h1 ⊢
    unfold taggedSearch
    rw [h1]
    simp
  | cons c lbl' ih =>
    intro acc hta hnl
    have hsfx : suffixOk (c :: lbl') = true := by
      rw [List.tails_cons, List.all_cons, Bool.and_eq_true] at hta
      exact hta.1
    have hta' : lbl'.tails.all suffixOk = true := by
      rw [List.tails_cons, List.all_cons, Bool.and_eq_true] at hta
      exact hta.2
    have hnl' : ∀ a ∈ lbl', ¬(a = '\n') := fun a ha => hnl a (by simp [ha])
    have hcnl : ¬(c = '\n') := hnl c (by simp)
    have h0 : oneIntTail (c :: (lbl' ++ (gap ++ d))) = none :=
      oneIntTail_none_of_suffixOk c lbl' (gap ++ d) hsfx
    have hrec := ih (c :: acc) hta' hnl'
    simp only [List.cons_append]
    unfold taggedSearch
    rw [h0]
    simp only [if_neg hcnl]
    rw [hrec]
    simp [List.reverse_cons, List.append_assoc]

theorem ipvSearch_label (g1 d1 g2 d2 : Line)
    (hg1 : g1 ≠ []) (hg1all : ∀ c ∈ g1, goSpace c = true) (hd1 : DigitPayload d1)
    (hg2 : g2 ≠ []) (hg2all : ∀ c ∈ g2, goSpace c = true) (hd2 : DigitPayload d2) :
    ∀ (lbl acc : Line), lbl.tails.all suffixOk = true → (∀ c ∈ lbl, ¬(c = '\n')) →
      ipvSearch acc (lbl ++ (g1 ++ (d1 ++ (g2 ++ d2)))) =
        some (acc.reverse ++ lbl, d1, d2) := by
  intro lbl
  induction lbl with
  | nil =>
    intro acc _ _
    have h1 : twoIntTail (g1 ++ (d1 ++ (g2 ++ d2))) = some (d1, d2) :=
      twoIntTail_gap_payload g1 d1 g2 d2 hg1 hg1all hd1 hg2 hg2all hd2
    obtain ⟨g0, g', rfl⟩ : ∃ g0 g', g1 = g0 :: g' := by
      cases g1 with
      | nil => exact absurd rfl hg1
      | cons a t => exact ⟨a, t, rfl⟩
    simp only [List.nil_append, List.cons_append] at h1 ⊢
    unfold ipvSearch
    rw [h1]
    simp
  | cons c lbl' ih =>
    intro acc hta hnl
    have hsfx : suffixOk (c :: lbl') = true := by
      rw [List.tails_cons, List.all_cons, Bool.and_eq_true] at hta
      exact hta.1
    have hta' : lbl'.tails.all suffixOk = true := by
      rw [List.tails_cons, List.all_cons, Bool.and_eq_true] at hta
      exact hta.2
    have hnl' : ∀ a ∈ lbl', ¬(a = '\n') := fun a ha => hnl a (by simp [ha])
    have hcnl : ¬(c = '\n') := hnl c (by simp)
    have h0 : twoIntTail (c :: (lbl' ++ (g1 ++ (d1 ++ (g2 ++ d2))))) = none :=
      twoIntTail_none_of_suffixOk c lbl' (g1 ++ (d1 ++ (g2 ++ d2))) hsfx
    have hrec := ih (c :: acc) hta' hnl'
    simp only [List.cons_append]
    unfold ipvSearch
    rw [h0]
    simp only [if_neg hcnl]
    rw [hrec]
    simp [List.reverse_cons, List.append_assoc]

theorem taggedMatch_label (ws lbl gap d : Line)
    (hws : ws ≠ []) (hwall : ∀ c ∈ ws, goSpace c = true)
    (hlbl0 : lbl ≠ [])
    (hhead : ∀ c, lbl.head? = some c → goSpace c = false)
    (hta : lbl.tails.all suffixOk = true) (hnl : ∀ c ∈ lbl, ¬(c = '\n'))
    (hgap : gap ≠ []) (hgall : ∀ c ∈ gap, goSpace c = true)
    (hd : DigitPayload d) :
    taggedMatch (ws ++ (lbl ++ (gap ++ d))) = some (lbl, d) := by
  obtain ⟨c0, lbl'', rfl⟩ : ∃ c0 lbl'', lbl = c0 :: lbl'' := by
    cases lbl with
    | nil => exact absurd rfl hlbl0
    | cons a t => exact ⟨a, t, rfl⟩
  have hhd : ∀ c, ((c0 :: lbl'') ++ (gap ++ d)).head? = some c → goSpace c = false := by
    intro c hc
    simp only [List.cons_append, List.head?_cons, Option.some.injEq] at hc
    subst hc
    exact hhead c0 (by simp)
  have htw : (ws ++ ((c0 :: lbl'') ++ (gap ++ d))).takeWhile goSpace = ws :=
    takeWhile_app_of goSpace ws _ hwall hhd
  obtain ⟨w, ws', rfl⟩ : ∃ w ws'', ws = w :: ws'' := by
    cases ws with
    | nil => exact absurd rfl hws
    | cons a t => exact ⟨a, t, rfl⟩
  have hdrop : ((w :: ws') ++ ((c0 :: lbl'') ++ (gap ++ d))).drop (ws'.length + 1) =
      (c0 :: lbl'') ++ (gap ++ d) := by
    have := List.drop_left (w :: ws') ((c0 :: lbl'') ++ (gap ++ d))
    simpa using this
  have hsearch := taggedSearch_label gap d hgap hgall hd (c0 :: lbl'') [] hta hnl
  unfold taggedMatch
  rw [htw]
  simp only [List.length_cons]
  unfold taggedTryWs
  rw [hdrop, hsearch]
  simp

theorem IPvMatch_label (ws lbl g1 d1 g2 d2 : Line)
    (hws : ws ≠ []) (hwall : ∀ c ∈ ws, goSpace c = true)
    (hlbl0 : lbl ≠ [])
    (hhead : ∀ c, lbl.head? = some c → goSpace c = false)
    (hta : lbl.tails.all suffixOk = true) (hnl : ∀ c ∈ lbl, ¬(c = '\n'))
    (hg1 : g1 ≠ []) (hg1all : ∀ c ∈ g1, goSpace c = true) (hd1 : DigitPayload d1)
    (hg2 : g2 ≠ []) (hg2all : ∀ c ∈ g2, goSpace c = true) (hd2 : DigitPayload d2) :
    IPvMatch (ws ++ (lbl ++ (g1 ++ (d1 ++ (g2 ++ d2))))) = some (lbl, d1, d2) := by
  obtain ⟨c0, lbl'', rfl⟩ : ∃ c0 lbl'', lbl = c0 :: lbl'' := by
    cases lbl with
    | nil => exact absurd rfl hlbl0
    | cons a t => exact ⟨a, t, rfl⟩
  have hhd : ∀ c, ((c0 :: lbl'') ++ (g1 ++ (d1 ++ (g2 ++ d2)))).head? = some c →
      goSpace c = false := by
    intro c hc
    simp only [List.cons_append, List.head?_cons, Option.some.injEq] at hc
    subst hc
    exact hhead c0 (by simp)
  have htw : (ws ++ ((c0 :: lbl'') ++ (g1 ++ (d1 ++ (g2 ++ d2))))).takeWhile goSpace = ws :=
    takeWhile_app_of goSpace ws _ hwall hhd
  obtain ⟨w, ws', rfl⟩ : ∃ w ws'', ws = w :: ws'' := by
    cases ws with
    | nil => exact absurd rfl hws
    | cons a t => exact ⟨a, t, rfl⟩
  have hdrop : ((w :: ws') ++ ((c0 :: lbl'') ++ (g1 ++ (d1 ++ (g2 ++ d2))))).drop
      (ws'.length + 1) = (c0 :: lbl'') ++ (g1 ++ (d1 ++ (g2 ++ d2))) := by
    have := List.drop_left (w :: ws') ((c0 :: lbl'') ++ (g1 ++ (d1 ++ (g2 ++ d2))))
    simpa using this
  have hsearch := ipvSearch_label g1 d1 g2 d2 hg1 hg1all hd1 hg2 hg2all hd2
    (c0 :: lbl'') [] hta hnl
  unfold IPvMatch
  rw [htw]
  simp only [List.length_cons]
  unfold ipvTryWs
  rw [hdrop, hsearch]
  simp

theorem head_cond_of {l : Line} (h : labelHeadOk l = true) :
    ∀ c, l.head? = some c → goSpace c = false := by
  cases l with
  | nil => exact absurd h (by simp [labelHeadOk])
  | cons a t =>
    intro c hc
    simp only [List.head?_cons, Option.some.injEq] at hc
    subst hc
    simpa [labelHeadOk] using h

theorem labelHeadOk_ne_nil {l : Line} (h : labelHeadOk l = true) : l ≠ [] := by
  cases l with
  | nil => exact absurd h (by simp [labelHeadOk])
  | cons a t => simp

/-- Wrapper for `taggedMatch_label` with string-literal pieces. -/
theorem taggedMatch_str (ws lbl gap : String) (d : Line) (hd : DigitPayload d)
    (hws0 : ws.data ≠ []) (hwall : ∀ c ∈ ws.data, goSpace c = true)
    (hh : labelHeadOk lbl.data = true)
    (hta : lbl.data.tails.all suffixOk = true)
    (hnl : ∀ c ∈ lbl.data, ¬(c = '\n'))
    (hgap0 : gap.data ≠ []) (hgall : ∀ c ∈ gap.data, goSpace c = true) :
    taggedMatch (ws.data ++ (lbl.data ++ (gap.data ++ d))) = some (lbl.data, d) :=
  taggedMatch_label ws.data lbl.data gap.data d hws0 hwall (labelHeadOk_ne_nil hh)
    (head_cond_of hh) hta hnl hgap0 hgall hd

/-- Wrapper for `IPvMatch_label` with string-literal pieces. -/
theorem IPvMatch_str (ws lbl g1 g2 : String) (d1 d2 : Line)
    (hd1 : DigitPayload d1) (hd2 : DigitPayload d2)
    (hws0 : ws.data ≠ []) (hwall : ∀ c ∈ ws.data, goSpace c = true)
    (hh : labelHeadOk lbl.data = true)
    (hta : lbl.data.tails.all suffixOk = true)
    (hnl : ∀ c ∈ lbl.data, ¬(c = '\n'))
    (hg10 : g1.data ≠ []) (hg1all : ∀ c ∈ g1.data, goSpace c = true)
    (hg20 : g2.data ≠ []) (hg2all : ∀ c ∈ g2.data, goSpace c = true) :
    IPvMatch (ws.data ++ (lbl.data ++ (g1.data ++ (d1 ++ (g2.data ++ d2))))) =
      some (lbl.data, d1, d2) :=
  IPvMatch_label ws.data lbl.data g1.data d1 g2.data d2 hws0 hwall
    (labelHeadOk_ne_nil hh) (head_cond_of hh) hta hnl hg10 hg1all hd1 hg20 hg2all hd2

theorem goSpace_cases {c : Char} (h : goSpace c = true) :
    c = ' ' ∨ c = '\t' ∨ c = '\n' ∨ c = '\x0c' ∨ c = '\r' := by
  unfold goSpace at h
  simp only [Bool.or_eq_true, decide_eq_true_eq] at h
  tauto

theorem isPrefixOf_false_head (a : Char) (as : Line) (b : Char) (bs : Line)
    (h : ¬(a = b)) : List.isPrefixOf (a :: as) (b :: bs) = false := by
  rw [show List.isPrefixOf (a :: as) (b :: bs) = (a == b && List.isPrefixOf as bs)
    from rfl, beq_eq_false_iff_ne.mpr h]
  rfl

theorem head_of_takeWhile (p : Char → Bool) (l : List Char) (w : Char) (t : List Char)
    (h : l.takeWhile p = w :: t) : ∃ r, l = w :: r ∧ p w = true := by
  cases l with
  | nil => exact absurd h (by simp)
  | cons a r =>
    by_cases hp : p a = true
    · rw [List.takeWhile_cons_of_pos hp] at h
      obtain ⟨rfl, -⟩ := List.cons.injEq .. |>.mp h
      exact ⟨r, rfl, hp⟩
    · rw [List.takeWhile_cons_of_neg (by simpa using hp)] at h
      exact absurd h (by simp)

/-- A line whose leading-whitespace run is nonempty and whose first
non-whitespace character is neither `P` nor `B` is no stanza header, no
packets header and no bytes line. -/
theorem dataLine_collect_facts (line : Line) (w c : Char) (ws'' r' : Line)
    (htw : line.takeWhile goSpace = w :: ws'')
    (hdw : line.dropWhile goSpace = c :: r')
    (hcP : ¬(c = 'P')) (hcB : ¬(c = 'B')) :
    anyTableHeader line = false ∧ packetsMatch line = none ∧
      bytesMatch line = none := by
  obtain ⟨r, rfl, hw⟩ := head_of_takeWhile goSpace line w ws'' htw
  refine ⟨?_, ?_, ?_⟩
  · rcases goSpace_cases hw with rfl | rfl | rfl | rfl | rfl <;> rfl
  · unfold packetsMatch
    rw [htw, hdw]
    rw [show ("Packets In".data : Line) = 'P' :: "ackets In".data from rfl,
      isPrefixOf_false_head 'P' _ c r' (fun he => hcP he.symm)]
    rw [show ("Packets Out".data : Line) = 'P' :: "ackets Out".data from rfl,
      isPrefixOf_false_head 'P' _ c r' (fun he => hcP he.symm)]
    simp
  · unfold bytesMatch
    rw [htw, hdw]
    rw [show ("Bytes In".data : Line) = 'B' :: "ytes In".data from rfl,
      isPrefixOf_false_head 'B' _ c r' (fun he => hcB he.symm)]
    rw [show ("Bytes Out".data : Line) = 'B' :: "ytes Out".data from rfl,
      isPrefixOf_false_head 'B' _ c r' (fun he => hcB he.symm)]
    simp

theorem isPrefixOf_self_append (p X : Line) : p.isPrefixOf (p ++ X) = true := by
  induction p with
  | nil => cases X <;> rfl
  | cons a t ih =>
    rw [List.cons_append,
      show List.isPrefixOf (a :: t) (a :: (t ++ X)) =
        (a == a && List.isPrefixOf t (t ++ X)) from rfl]
    simp [ih]

theorem head_cond_cons {c0 : Char} (t : Line) (h : goSpace c0 = false) :
    ∀ c, (c0 :: t).head? = some c → goSpace c = false := by
  intro c hc
  simp only [List.head?_cons, Option.some.injEq] at hc
  subst hc
  exact h

theorem bytesInLine_facts (d4 d6 : Line) (h4 : DigitPayload d4) (h6 : DigitPayload d6) :
    anyTableHeader (bytesInLine d4 d6) = false ∧
    packetsMatch (bytesInLine d4 d6) = none ∧
    bytesMatch (bytesInLine d4 d6) = some ("  Bytes In".data, d4, d6) := by
  have hcond : ∀ c, (("Bytes In".data ++ (" ".data ++ (d4 ++ (" ".data ++ d6)))) :
      Line).head? = some c → goSpace c = false := head_cond_cons _ (by decide)
  have htw : (bytesInLine d4 d6).takeWhile goSpace = "  ".data :=
    takeWhile_app_of goSpace "  ".data _ (by decide) hcond
  have hdw : (bytesInLine d4 d6).dropWhile goSpace =
      "Bytes In".data ++ (" ".data ++ (d4 ++ (" ".data ++ d6))) :=
    dropWhile_app_of goSpace "  ".data _ (by decide) hcond
  refine ⟨rfl, ?_, ?_⟩
  · have hpi : ("Packets In".data : Line).isPrefixOf
        ("Bytes In".data ++ (" ".data ++ (d4 ++ (" ".data ++ d6)))) = false :=
      isPrefixOf_false_head 'P' "ackets In".data 'B' _ (by decide)
    have hpo : ("Packets Out".data : Line).isPrefixOf
        ("Bytes In".data ++ (" ".data ++ (d4 ++ (" ".data ++ d6)))) = false :=
      isPrefixOf_false_head 'P' "ackets Out".data 'B' _ (by decide)
    unfold packetsMatch
    rw [htw, hdw, hpi, hpo]
    simp
  · have hpre : ("Bytes In".data : Line).isPrefixOf
        ("Bytes In".data ++ (" ".data ++ (d4 ++ (" ".data ++ d6)))) = true :=
      isPrefixOf_self_append _ _
    have hdrop : (("Bytes In".data ++ (" ".data ++ (d4 ++ (" ".data ++ d6)))) :
        Line).drop ("Bytes In".data.length) = " ".data ++ (d4 ++ (" ".data ++ d6)) :=
      List.drop_left _ _
    have htwo : twoIntTail (" ".data ++ (d4 ++ (" ".data ++ d6))) = some (d4, d6) :=
      twoIntTail_gap_payload " ".data d4 " ".data d6 (by decide) (by decide) h4
        (by decide) (by decide) h6
    unfold bytesMatch
    rw [htw, hdw, hpre]
    simp only [if_neg (show ¬(("  ".data : Line) = []) by decide), if_pos rfl]
    rw [hdrop, htwo]
    simp

theorem bytesOutLine_facts (d4 d6 : Line) (h4 : DigitPayload d4) (h6 : DigitPayload d6) :
    anyTableHeader (bytesOutLine d4 d6) = false ∧
    packetsMatch (bytesOutLine d4 d6) = none ∧
    bytesMatch (bytesOutLine d4 d6) = some ("  Bytes Out".data, d4, d6) := by
  have hcond : ∀ c, (("Bytes Out".data ++ (" ".data ++ (d4 ++ (" ".data ++ d6)))) :
      Line).head? = some c → goSpace c = false := head_cond_cons _ (by decide)
  have htw : (bytesOutLine d4 d6).takeWhile goSpace = "  ".data :=
    takeWhile_app_of goSpace "  ".data _ (by decide) hcond
  have hdw : (bytesOutLine d4 d6).dropWhile goSpace =
      "Bytes Out".data ++ (" ".data ++ (d4 ++ (" ".data ++ d6))) :=
    dropWhile_app_of goSpace "  ".data _ (by decide) hcond
  refine ⟨rfl, ?_, ?_⟩
  · have hpi : ("Packets In".data : Line).isPrefixOf
        ("Bytes Out".data ++ (" ".data ++ (d4 ++ (" ".data ++ d6)))) = false :=
      isPrefixOf_false_head 'P' "ackets In".data 'B' _ (by decide)
    have hpo : ("Packets Out".data : Line).isPrefixOf
        ("Bytes Out".data ++ (" ".data ++ (d4 ++ (" ".data ++ d6)))) = false :=
      isPrefixOf_false_head 'P' "ackets Out".data 'B' _ (by decide)
    unfold packetsMatch
    rw [htw, hdw, hpi, hpo]
    simp
  · have hbi : ("Bytes In".data : Line).isPrefixOf
        ("Bytes Out".data ++ (" ".data ++ (d4 ++ (" ".data ++ d6)))) = false := by
      rw [show (("Bytes Out".data ++ (" ".data ++ (d4 ++ (" ".data ++ d6)))) : Line) =
        "Bytes ".data ++ ("Out".data ++ (" ".data ++ (d4 ++ (" ".data ++ d6)))) from rfl]
      rw [show ("Bytes In".data : Line) = "Bytes ".data ++ "In".data from rfl]
      rw [show (("Bytes ".data ++ "In".data : Line)).isPrefixOf
          ("Bytes ".data ++ ("Out".data ++ (" ".data ++ (d4 ++ (" ".data ++ d6))))) =
          ("In".data : Line).isPrefixOf
            ("Out".data ++ (" ".data ++ (d4 ++ (" ".data ++ d6)))) from rfl]
      exact isPrefixOf_false_head 'I' "n".data 'O' _ (by decide)
    have hpre : ("Bytes Out".data : Line).isPrefixOf
        ("Bytes Out".data ++ (" ".data ++ (d4 ++ (" ".data ++ d6)))) = true :=
      isPrefixOf_self_append _ _
    have hdrop : (("Bytes Out".data ++ (" ".data ++ (d4 ++ (" ".data ++ d6)))) :
        Line).drop ("Bytes Out".data.length) = " ".data ++ (d4 ++ (" ".data ++ d6)) :=
      List.drop_left _ _
    have htwo : twoIntTail (" ".data ++ (d4 ++ (" ".data ++ d6))) = some (d4, d6) :=
      twoIntTail_gap_payload " ".data d4 " ".data d6 (by decide) (by decide) h4
        (by decide) (by decide) h6
    unfold bytesMatch
    rw [htw, hdw, hbi, hpre]
    simp only [if_neg (show ¬(("  ".data : Line) = []) by decide), if_pos rfl]
    rw [hdrop, htwo]
    simp

theorem passedLine_ipv (d4 d6 : Line) (h4 : DigitPayload d4) (h6 : DigitPayload d6) :
    IPvMatch (passedLine d4 d6) = some ("Passed".data, d4, d6) :=
  IPvMatch_str "    " "Passed" " " " " d4 d6 h4 h6 (by decide) (by decide) (by decide)
    (by decide) (by decide) (by decide) (by decide) (by decide) (by decide)

theorem blockedLine_ipv (d4 d6 : Line) (h4 : DigitPayload d4) (h6 : DigitPayload d6) :
    IPvMatch (blockedLine d4 d6) = some ("Blocked".data, d4, d6) :=
  IPvMatch_str "    " "Blocked" " " " " d4 d6 h4 h6 (by decide) (by decide) (by decide)
    (by decide) (by decide) (by decide) (by decide) (by decide) (by decide)

theorem tagLine_collect_facts (c : Char) (lrest : Line) (lbl : String) (d : Line)
    (he : lbl.data = c :: lrest) (hc : goSpace c = false)
    (hcP : ¬(c = 'P')) (hcB : ¬(c = 'B')) :
    anyTableHeader (tagLine lbl d) = false ∧ packetsMatch (tagLine lbl d) = none ∧
      bytesMatch (tagLine lbl d) = none := by
  have hcond : ∀ x, ((lbl.data ++ (" ".data ++ d)) : Line).head? = some x →
      goSpace x = false := by
    rw [he]
    exact head_cond_cons _ hc
  have htw : (tagLine lbl d).takeWhile goSpace = "  ".data :=
    takeWhile_app_of goSpace "  ".data _ (by decide) hcond
  have hdw : (tagLine lbl d).dropWhile goSpace = c :: (lrest ++ (" ".data ++ d)) := by
    have h0 : (tagLine lbl d).dropWhile goSpace = lbl.data ++ (" ".data ++ d) :=
      dropWhile_app_of goSpace "  ".data _ (by decide) hcond
    rw [h0, he, List.cons_append]
  exact dataLine_collect_facts (tagLine lbl d) ' ' c [' '] _ htw hdw hcP hcB

/-- The tagged (label, integer) extraction on a generic data line. -/
theorem tagLine_tagged (lbl : String) (d : Line) (hd : DigitPayload d)
    (hh : labelHeadOk lbl.data = true)
    (hta : lbl.data.tails.all suffixOk = true)
    (hnl : ∀ c ∈ lbl.data, ¬(c = '\n')) :
    taggedMatch (tagLine lbl d) = some (lbl.data, d) :=
  taggedMatch_str "  " lbl " " d hd (by decide) (by decide) hh hta hnl
    (by decide) (by decide)

/-- Tagged extraction for a line given in another syntactic shape. -/
theorem taggedMatch_term_eq (t : Line) (ws lbl gap : String) (d : Line)
    (he : t = ws.data ++ (lbl.data ++ (gap.data ++ d))) (hd : DigitPayload d)
    (hws0 : ws.data ≠ []) (hwall : ∀ c ∈ ws.data, goSpace c = true)
    (hh : labelHeadOk lbl.data = true)
    (hta : lbl.data.tails.all suffixOk = true)
    (hnl : ∀ c ∈ lbl.data, ¬(c = '\n'))
    (hgap0 : gap.data ≠ []) (hgall : ∀ c ∈ gap.data, goSpace c = true) :
    taggedMatch t = some (lbl.data, d) := by
  rw [he]
  exact taggedMatch_str ws lbl gap d hd hws0 hwall hh hta hnl hgap0 hgall

theorem collect_header (line : Line) (rest acc : List Line)
    (hh : anyTableHeader line = true) : collect line rest acc = (acc, line, rest) := by
  match rest with
  | [] => simp [collect, hh]
  | [a] => simp [collect, hh]
  | [a, b] => simp [collect, hh]
  | a :: b :: r :: rs => simp [collect, hh]

theorem collect_other_cons (line l : Line) (ls acc : List Line)
    (hh : anyTableHeader line = false) (hp : packetsMatch line = none) :
    collect line (l :: ls) acc = collect l ls (acc ++ lineTransform line) := by
  match ls with
  | [] => simp [collect, hh, hp]
  | [b] => simp [collect, hh, hp]
  | b :: r :: rs => simp [collect, hh, hp]

theorem collect_other_nil (line : Line) (acc : List Line)
    (hh : anyTableHeader line = false) (hp : packetsMatch line = none) :
    collect line [] acc = (acc ++ lineTransform line, line, []) := by
  simp [collect, hh, hp]

theorem collect_packets_long (line a b r : Line) (rs' acc : List Line) (pfx : Line)
    (hh : anyTableHeader line = false) (hp : packetsMatch line = some pfx) :
    collect line (a :: b :: r :: rs') acc =
      collect r rs' (acc ++ packetsExpand pfx a ++ packetsExpand pfx b) := by
  simp [collect, hh, hp]

theorem lineTransform_of_bytes (line pfx : Line) (d4 d6 : Line)
    (h : bytesMatch line = some (pfx, d4, d6)) :
    lineTransform line = [pfx ++ " IPv4 ".data ++ d4, pfx ++ " IPv6 ".data ++ d6] := by
  simp [lineTransform, h]

theorem packetsExpand_of (pfx l lbl d4 d6 : Line) (h : IPvMatch l = some (lbl, d4, d6)) :
    packetsExpand pfx l =
      [pfx ++ " ".data ++ lbl ++ " IPv4 ".data ++ d4,
       pfx ++ " ".data ++ lbl ++ " IPv6 ".data ++ d6] := by
  simp [packetsExpand, h]

theorem packetsInLine_match : packetsMatch packetsInLine = some ("  Packets In".data) := by
  decide

theorem packetsOutLine_match :
    packetsMatch packetsOutLine = some ("  Packets Out".data) := by
  decide

/-- Values parsed from `\d+` captures are never negative: the capture has
no sign character, so `ParseInt` takes the non-negative branch. -/
theorem parseInt64_digits_nonneg (s : Line) (v : Int)
    (hs : ∀ c ∈ s, goDigit c = true) (h : parseInt64 s = .ok v) : 0 ≤ v := by
  cases s with
  | nil => simp [parseInt64] at h
  | cons c t =>
    have hcd : goDigit c = true := hs c (by simp)
    have hcm : ¬(c = '-') := by
      intro he
      subst he
      exact absurd hcd (by decide)
    have hcp : ¬(c = '+') := by
      intro he
      subst he
      exact absurd hcd (by decide)
    rw [show parseInt64 (c :: t) =
      (if c = '-' then parseIntCore (c :: t) true t
       else if c = '+' then parseIntCore (c :: t) false t
       else parseIntCore (c :: t) false (c :: t)) from rfl] at h
    rw [if_neg hcm, if_neg hcp] at h
    unfold parseIntCore at h
    rw [if_neg (by simp : ¬(c :: t = [])),
      if_pos (by simpa [List.all_eq_true] using hs)] at h
    simp only [Bool.false_eq_true, if_false] at h
    by_cases hb : digitsToNat (c :: t) ≤ 2 ^ 63 - 1
    · rw [if_pos hb] at h
      simp only [Except.ok.injEq] at h
      subst h
      exact Int.natCast_nonneg _
    · rw [if_neg hb] at h
      exact absurd h (by simp)

theorem collect_iface (d : Nat → Line) (hd : ∀ i, DigitPayload (d i)) (tail : List Line) :
    collect (bytesInLine (d 0) (d 1))
      (bytesOutLine (d 2) (d 3) :: packetsInLine :: passedLine (d 4) (d 5) ::
        blockedLine (d 6) (d 7) :: packetsOutLine :: passedLine (d 8) (d 9) ::
        blockedLine (d 10) (d 11) :: stateHeaderLine :: tail) []
      = (ifaceStanzaLines d, stateHeaderLine, tail) := by
  obtain ⟨hbi1, hbi2, hbi3⟩ := bytesInLine_facts (d 0) (d 1) (hd 0) (hd 1)
  obtain ⟨hbo1, hbo2, hbo3⟩ := bytesOutLine_facts (d 2) (d 3) (hd 2) (hd 3)
  rw [collect_other_cons _ _ _ _ hbi1 hbi2, lineTransform_of_bytes _ _ _ _ hbi3,
    collect_other_cons _ _ _ _ hbo1 hbo2, lineTransform_of_bytes _ _ _ _ hbo3,
    collect_packets_long _ _ _ _ _ _ _ (by decide) packetsInLine_match,
    packetsExpand_of _ _ _ _ _ (passedLine_ipv (d 4) (d 5) (hd 4) (hd 5)),
    packetsExpand_of _ _ _ _ _ (blockedLine_ipv (d 6) (d 7) (hd 6) (hd 7)),
    collect_packets_long _ _ _ _ _ _ _ (by decide) packetsOutLine_match,
    packetsExpand_of _ _ _ _ _ (passedLine_ipv (d 8) (d 9) (hd 8) (hd 9)),
    packetsExpand_of _ _ _ _ _ (blockedLine_ipv (d 10) (d 11) (hd 10) (hd 11)),
    collect_header _ _ _ (by decide)]
  simp [ifaceStanzaLines]

theorem collect_state (d : Nat → Line) (hd : ∀ i, DigitPayload (d i)) (tail : List Line) :
    collect (tagLine "current entries" (d 12))
      (tagLine "searches" (d 13) :: tagLine "inserts" (d 14) ::
        tagLine "removals" (d 15) :: countersHeaderLine :: tail) []
      = (stateStanzaLines d, countersHeaderLine, tail) := by
  obtain ⟨h1a, h1b, h1c⟩ := tagLine_collect_facts 'c' "urrent entries".data
    "current entries" (d 12) rfl (by decide) (by decide) (by decide)
  obtain ⟨h2a, h2b, h2c⟩ := tagLine_collect_facts 's' "earches".data
    "searches" (d 13) rfl (by decide) (by decide) (by decide)
  obtain ⟨h3a, h3b, h3c⟩ := tagLine_collect_facts 'i' "nserts".data
    "inserts" (d 14) rfl (by decide) (by decide) (by decide)
  obtain ⟨h4a, h4b, h4c⟩ := tagLine_collect_facts 'r' "emovals".data
    "removals" (d 15) rfl (by decide) (by decide) (by decide)
  rw [collect_other_cons _ _ _ _ h1a h1b,
    collect_other_cons _ _ _ _ h2a h2b,
    collect_other_cons _ _ _ _ h3a h3b,
    collect_other_cons _ _ _ _ h4a h4b,
    collect_header _ _ _ (by decide)]
  simp [stateStanzaLines, lineTransform, h1c, h2c, h3c, h4c]

theorem collect_counters (d : Nat → Line) (hd : ∀ i, DigitPayload (d i)) :
    collect (tagLine "match" (d 16))
      (tagLine "bad-offset" (d 17) :: tagLine "fragment" (d 18) ::
        tagLine "short" (d 19) :: tagLine "normalize" (d 20) ::
        tagLine "memory" (d 21) :: tagLine "bad-timestamp" (d 22) ::
        tagLine "congestion" (d 23) :: tagLine "ip-option" (d 24) ::
        tagLine "proto-cksum" (d 25) :: tagLine "state-mismatch" (d 26) ::
        tagLine "state-insert" (d 27) :: tagLine "state-limit" (d 28) ::
        tagLine "src-limit" (d 29) :: tagLine "synproxy" (d 30) :: []) []
      = (counterStanzaLines d, tagLine "synproxy" (d 30), []) := by
  obtain ⟨h1a, h1b, h1c⟩ := tagLine_collect_facts 'm' "atch".data
    "match" (d 16) rfl (by decide) (by decide) (by decide)
  obtain ⟨h2a, h2b, h2c⟩ := tagLine_collect_facts 'b' "ad-offset".data
    "bad-offset" (d 17) rfl (by decide) (by decide) (by decide)
  obtain ⟨h3a, h3b, h3c⟩ := tagLine_collect_facts 'f' "ragment".data
    "fragment" (d 18) rfl (by decide) (by decide) (by decide)
  obtain ⟨h4a, h4b, h4c⟩ := tagLine_collect_facts 's' "hort".data
    "short" (d 19) rfl (by decide) (by decide) (by decide)
  obtain ⟨h5a, h5b, h5c⟩ := tagLine_collect_facts 'n' "ormalize".data
    "normalize" (d 20) rfl (by decide) (by decide) (by decide)
  obtain ⟨h6a, h6b, h6c⟩ := tagLine_collect_facts 'm' "emory".data
    "memory" (d 21) rfl (by decide) (by decide) (by decide)
  obtain ⟨h7a, h7b, h7c⟩ := tagLine_collect_facts 'b' "ad-timestamp".data
    "bad-timestamp" (d 22) rfl (by decide) (by decide) (by decide)
  obtain ⟨h8a, h8b, h8c⟩ := tagLine_collect_facts 'c' "ongestion".data
    "congestion" (d 23) rfl (by decide) (by decide) (by decide)
  obtain ⟨h9a, h9b, h9c⟩ := tagLine_collect_facts 'i' "p-option".data
    "ip-option" (d 24) rfl (by decide) (by decide) (by decide)
  obtain ⟨h10a, h10b, h10c⟩ := tagLine_collect_facts 'p' "roto-cksum".data
    "proto-cksum" (d 25) rfl (by decide) (by decide) (by decide)
  obtain ⟨h11a, h11b, h11c⟩ := tagLine_collect_facts 's' "tate-mismatch".data
    "state-mismatch" (d 26) rfl (by decide) (by decide) (by decide)
  obtain ⟨h12a, h12b, h12c⟩ := tagLine_collect_facts 's' "tate-insert".data
    "state-insert" (d 27) rfl (by decide) (by decide) (by decide)
  obtain ⟨h13a, h13b, h13c⟩ := tagLine_collect_facts 's' "tate-limit".data
    "state-limit" (d 28) rfl (by decide) (by decide) (by decide)
  obtain ⟨h14a, h14b, h14c⟩ := tagLine_collect_facts 's' "rc-limit".data
    "src-limit" (d 29) rfl (by decide) (by decide) (by decide)
  obtain ⟨h15a, h15b, h15c⟩ := tagLine_collect_facts 's' "ynproxy".data
    "synproxy" (d 30) rfl (by decide) (by decide) (by decide)
  rw [collect_other_cons _ _ _ _ h1a h1b,
    collect_other_cons _ _ _ _ h2a h2b,
    collect_other_cons _ _ _ _ h3a h3b,
    collect_other_cons _ _ _ _ h4a h4b,
    collect_other_cons _ _ _ _ h5a h5b,
    collect_other_cons _ _ _ _ h6a h6b,
    collect_other_cons _ _ _ _ h7a h7b,
    collect_other_cons _ _ _ _ h8a h8b,
    collect_other_cons _ _ _ _ h9a h9b,
    collect_other_cons _ _ _ _ h10a h10b,
    collect_other_cons _ _ _ _ h11a h11b,
    collect_other_cons _ _ _ _ h12a h12b,
    collect_other_cons _ _ _ _ h13a h13b,
    collect_other_cons _ _ _ _ h14a h14b,
    collect_other_nil _ _ h15a h15b]
  simp [counterStanzaLines, lineTransform, h1c, h2c, h3c, h4c, h5c, h6c, h7c, h8c,
    h9c, h10c, h11c, h12c, h13c, h14c, h15c]

theorem scan_iface (d : Nat → Line) (v : Nat → Int)
    (hd : ∀ i, DigitPayload (d i)) (hv : ∀ i, parseInt64 (d i) = .ok (v i)) :
    scanStanzaLines (ifaceStanzaLines d) InterfaceTable = .ok (ifaceTableFilled v) := by
  have t1 := taggedMatch_term_eq ("  Bytes In".data ++ " IPv4 ".data ++ d 0)
    "  " "Bytes In IPv4" " " (d 0) rfl (hd 0) (by decide) (by decide) (by decide)
    (by decide) (by decide) (by decide) (by decide)
  have t2 := taggedMatch_term_eq ("  Bytes In".data ++ " IPv6 ".data ++ d 1)
    "  " "Bytes In IPv6" " " (d 1) rfl (hd 1) (by decide) (by decide) (by decide)
    (by decide) (by decide) (by decide) (by decide)
  have t3 := taggedMatch_term_eq ("  Bytes Out".data ++ " IPv4 ".data ++ d 2)
    "  " "Bytes Out IPv4" " " (d 2) rfl (hd 2) (by decide) (by decide) (by decide)
    (by decide) (by decide) (by decide) (by decide)
  have t4 := taggedMatch_term_eq ("  Bytes Out".data ++ " IPv6 ".data ++ d 3)
    "  " "Bytes Out IPv6" " " (d 3) rfl (hd 3) (by decide) (by decide) (by decide)
    (by decide) (by decide) (by decide) (by decide)
  have t5 := taggedMatch_term_eq
    ("  Packets In".data ++ " ".data ++ "Passed".data ++ " IPv4 ".data ++ d 4)
    "  " "Packets In Passed IPv4" " " (d 4) rfl (hd 4) (by decide) (by decide)
    (by decide) (by decide) (by decide) (by decide) (by decide)
  have t6 := taggedMatch_term_eq
    ("  Packets In".data ++ " ".data ++ "Passed".data ++ " IPv6 ".data ++ d 5)
    "  " "Packets In Passed IPv6" " " (d 5) rfl (hd 5) (by decide) (by decide)
    (by decide) (by decide) (by decide) (by decide) (by decide)
  have t7 := taggedMatch_term_eq
    ("  Packets In".data ++ " ".data ++ "Blocked".data ++ " IPv4 ".data ++ d 6)
    "  " "Packets In Blocked IPv4" " " (d 6) rfl (hd 6) (by decide) (by decide)
    (by decide) (by decide) (by decide) (by decide) (by decide)
  have t8 := taggedMatch_term_eq
    ("  Packets In".data ++ " ".data ++ "Blocked".data ++ " IPv6 ".data ++ d 7)
    "  " "Packets In Blocked IPv6" " " (d 7) rfl (hd 7) (by decide) (by decide)
    (by decide) (by decide) (by decide) (by decide) (by decide)
  have t9 := taggedMatch_term_eq
    ("  Packets Out".data ++ " ".data ++ "Passed".data ++ " IPv4 ".data ++ d 8)
    "  " "Packets Out Passed IPv4" " " (d 8) rfl (hd 8) (by decide) (by decide)
    (by decide) (by decide) (by decide) (by decide) (by decide)
  have t10 := taggedMatch_term_eq
    ("  Packets Out".data ++ " ".data ++ "Passed".data ++ " IPv6 ".data ++ d 9)
    "  " "Packets Out Passed IPv6" " " (d 9) rfl (hd 9) (by decide) (by decide)
    (by decide) (by decide) (by decide) (by decide) (by decide)
  have t11 := taggedMatch_term_eq
    ("  Packets Out".data ++ " ".data ++ "Blocked".data ++ " IPv4 ".data ++ d 10)
    "  " "Packets Out Blocked IPv4" " " (d 10) rfl (hd 10) (by decide) (by decide)
    (by decide) (by decide) (by decide) (by decide) (by decide)
  have t12 := taggedMatch_term_eq
    ("  Packets Out".data ++ " ".data ++ "Blocked".data ++ " IPv6 ".data ++ d 11)
    "  " "Packets Out Blocked IPv6" " " (d 11) rfl (hd 11) (by decide) (by decide)
    (by decide) (by decide) (by decide) (by decide) (by decide)
  simp only [ifaceStanzaLines, scanStanzaLines, t1, t2, t3, t4, t5, t6, t7, t8, t9,
    t10, t11, t12]
  simp +decide [updateEntries, InterfaceTable, hv 0, hv 1, hv 2, hv 3, hv 4, hv 5,
    hv 6, hv 7, hv 8, hv 9, hv 10, hv 11, ifaceTableFilled]

theorem scan_state (d : Nat → Line) (v : Nat → Int)
    (hd : ∀ i, DigitPayload (d i)) (hv : ∀ i, parseInt64 (d i) = .ok (v i)) :
    scanStanzaLines (stateStanzaLines d) StateTable = .ok (stateTableFilled v) := by
  have t1 := tagLine_tagged "current entries" (d 12) (hd 12) (by decide) (by decide)
    (by decide)
  have t2 := tagLine_tagged "searches" (d 13) (hd 13) (by decide) (by decide) (by decide)
  have t3 := tagLine_tagged "inserts" (d 14) (hd 14) (by decide) (by decide) (by decide)
  have t4 := tagLine_tagged "removals" (d 15) (hd 15) (by decide) (by decide) (by decide)
  simp only [stateStanzaLines, scanStanzaLines, t1, t2, t3, t4]
  simp +decide [updateEntries, StateTable, hv 12, hv 13, hv 14, hv 15, stateTableFilled]

theorem scan_counters (d : Nat → Line) (v : Nat → Int)
    (hd : ∀ i, DigitPayload (d i)) (hv : ∀ i, parseInt64 (d i) = .ok (v i)) :
    scanStanzaLines (counterStanzaLines d) CounterTable = .ok (counterTableFilled v) := by
  have t1 := tagLine_tagged "match" (d 16) (hd 16) (by decide) (by decide) (by decide)
  have t2 := tagLine_tagged "bad-offset" (d 17) (hd 17) (by decide) (by decide)
    (by decide)
  have t3 := tagLine_tagged "fragment" (d 18) (hd 18) (by decide) (by decide) (by decide)
  have t4 := tagLine_tagged "short" (d 19) (hd 19) (by decide) (by decide) (by decide)
  have t5 := tagLine_tagged "normalize" (d 20) (hd 20) (by decide) (by decide)
    (by decide)
  have t6 := tagLine_tagged "memory" (d 21) (hd 21) (by decide) (by decide) (by decide)
  have t7 := tagLine_tagged "bad-timestamp" (d 22) (hd 22) (by decide) (by decide)
    (by decide)
  have t8 := tagLine_tagged "congestion" (d 23) (hd 23) (by decide) (by decide)
    (by decide)
  have t9 := tagLine_tagged "ip-option" (d 24) (hd 24) (by decide) (by decide)
    (by decide)
  have t10 := tagLine_tagged "proto-cksum" (d 25) (hd 25) (by decide) (by decide)
    (by decide)
  have t11 := tagLine_tagged "state-mismatch" (d 26) (hd 26) (by decide) (by decide)
    (by decide)
  have t12 := tagLine_tagged "state-insert" (d 27) (hd 27) (by decide) (by decide)
    (by decide)
  have t13 := tagLine_tagged "state-limit" (d 28) (hd 28) (by decide) (by decide)
    (by decide)
  have t14 := tagLine_tagged "src-limit" (d 29) (hd 29) (by decide) (by decide)
    (by decide)
  have t15 := tagLine_tagged "synproxy" (d 30) (hd 30) (by decide) (by decide)
    (by decide)
  simp only [counterStanzaLines, scanStanzaLines, t1, t2, t3, t4, t5, t6, t7, t8, t9,
    t10, t11, t12, t13, t14, t15]
  simp +decide [updateEntries, CounterTable, hv 16, hv 17, hv 18, hv 19, hv 20, hv 21,
    hv 22, hv 23, hv 24, hv 25, hv 26, hv 27, hv 28, hv 29, hv 30, counterTableFilled]

theorem lookupField_app_single (f : Fields) (k0 : Line) (x0 : Int) (k : Line)
    (hf : lookupField f k = none) (hk : ¬(k0 = k)) :
    lookupField (f ++ [(k0, x0)]) k = none := by
  induction f with
  | nil => simp [lookupField, hk]
  | cons p rest ih =>
    obtain ⟨k', v'⟩ := p
    by_cases hp : k' = k
    · rw [show lookupField ((k', v') :: rest) k =
        (if k' = k then some v' else lookupField rest k) from rfl, if_pos hp] at hf
      exact absurd hf (by simp)
    · rw [show lookupField ((k', v') :: rest) k =
        (if k' = k then some v' else lookupField rest k) from rfl, if_neg hp] at hf
      rw [List.cons_append,
        show lookupField ((k', v') :: (rest ++ [(k0, x0)])) k =
          (if k' = k then some v' else lookupField (rest ++ [(k0, x0)]) k) from rfl,
        if_neg hp]
      exact ih hf

theorem setField_fresh (f : Fields) (k : Line) (x : Int)
    (h : lookupField f k = none) : setField f k x = f ++ [(k, x)] := by
  induction f with
  | nil => rfl
  | cons p rest ih =>
    obtain ⟨k', v'⟩ := p
    by_cases hp : k' = k
    · rw [show lookupField ((k', v') :: rest) k =
        (if k' = k then some v' else lookupField rest k) from rfl, if_pos hp] at h
      exact absurd h (by simp)
    · rw [show lookupField ((k', v') :: rest) k =
        (if k' = k then some v' else lookupField rest k) from rfl, if_neg hp] at h
      rw [show setField ((k', v') :: rest) k x =
        (if k' = k then (k, x) :: rest else (k', v') :: setField rest k x) from rfl,
        if_neg hp, ih h, List.cons_append]

/-- Writing a table whose keys are fresh and mutually distinct appends its
(field, value) pairs in table order. -/
theorem emitFields_fresh (t : List Entry) : ∀ (f : Fields),
    (∀ e ∈ t, ¬(e.value = -1)) →
    (∀ e ∈ t, lookupField f e.field = none) →
    List.Pairwise (fun a b => ¬(a.field = b.field)) t →
    emitFields t f = .ok (f ++ entryFields t) := by
  induction t with
  | nil =>
    intro f _ _ _
    simp [emitFields, entryFields]
  | cons e es ih =>
    intro f hval hfresh hpw
    rw [show emitFields (e :: es) f =
      (if e.value = -1 then .error (.missingData e.pfctlTitle)
       else emitFields es (setField f e.field e.value)) from rfl,
      if_neg (hval e (by simp)),
      setField_fresh f e.field e.value (hfresh e (by simp))]
    rw [List.pairwise_cons] at hpw
    rw [ih (f ++ [(e.field, e.value)]) (fun e' he' => hval e' (by simp [he']))
      (fun e' he' => lookupField_app_single f e.field e.value e'.field
        (hfresh e' (by simp [he'])) (hpw.1 e' he'))
      hpw.2]
    simp [entryFields]

theorem emit_iface (v : Nat → Int) (hne : ∀ i, ¬(v i = -1)) :
    emitFields (ifaceTableFilled v) [] = .ok (ifaceFields v) := by
  rw [emitFields_fresh (ifaceTableFilled v) []
    (by intro e he; simp [ifaceTableFilled] at he
        rcases he with rfl | rfl | rfl | rfl | rfl | rfl | rfl | rfl | rfl | rfl |
          rfl | rfl <;> exact hne _)
    (fun e _ => rfl)
    (by simp +decide [ifaceTableFilled, List.pairwise_cons])]
  simp [entryFields, ifaceTableFilled, ifaceFields]

theorem store_iface_nil (d : Nat → Line) (v : Nat → Int)
    (hd : ∀ i, DigitPayload (d i)) (hv : ∀ i, parseInt64 (d i) = .ok (v i))
    (hne : ∀ i, ¬(v i = -1)) :
    storeFieldValues (ifaceStanzaLines d) InterfaceTable [] =
      .ok (ifaceTableFilled v, ifaceFields v) := by
  simp [storeFieldValues, scan_iface d v hd hv, emit_iface v hne]

theorem emit_state_after_iface (v : Nat → Int) (hne : ∀ i, ¬(v i = -1)) :
    emitFields (stateTableFilled v) (ifaceFields v) =
      .ok (ifaceFields v ++ stateFields v) := by
  rw [emitFields_fresh (stateTableFilled v) (ifaceFields v)
    (by intro e he; simp [stateTableFilled] at he
        rcases he with rfl | rfl | rfl | rfl <;> exact hne _)
    (by intro e he; simp [stateTableFilled] at he
        rcases he with rfl | rfl | rfl | rfl <;>
          simp +decide [lookupField, ifaceFields])
    (by simp +decide [stateTableFilled, List.pairwise_cons])]
  simp [entryFields, stateTableFilled, stateFields]

theorem store_state_after_iface (d : Nat → Line) (v : Nat → Int)
    (hd : ∀ i, DigitPayload (d i)) (hv : ∀ i, parseInt64 (d i) = .ok (v i))
    (hne : ∀ i, ¬(v i = -1)) :
    storeFieldValues (stateStanzaLines d) StateTable (ifaceFields v) =
      .ok (stateTableFilled v, ifaceFields v ++ stateFields v) := by
  simp [storeFieldValues, scan_state d v hd hv, emit_state_after_iface v hne]

theorem emit_counters_after (v : Nat → Int) (hne : ∀ i, ¬(v i = -1)) :
    emitFields (counterTableFilled v) (ifaceFields v ++ stateFields v) =
      .ok (ifaceFields v ++ stateFields v ++ counterFields v) := by
  rw [emitFields_fresh (counterTableFilled v) (ifaceFields v ++ stateFields v)
    (by intro e he; simp [counterTableFilled] at he
        rcases he with rfl | rfl | rfl | rfl | rfl | rfl | rfl | rfl | rfl | rfl |
          rfl | rfl | rfl | rfl | rfl <;> exact hne _)
    (by intro e he; simp [counterTableFilled] at he
        rcases he with rfl | rfl | rfl | rfl | rfl | rfl | rfl | rfl | rfl | rfl |
          rfl | rfl | rfl | rfl | rfl <;>
          simp +decide [lookupField, ifaceFields, stateFields])
    (by simp +decide [counterTableFilled, List.pairwise_cons])]
  simp [entryFields, counterTableFilled, ifaceFields, stateFields, counterFields]

theorem store_counters_after (d : Nat → Line) (v : Nat → Int)
    (hd : ∀ i, DigitPayload (d i)) (hv : ∀ i, parseInt64 (d i) = .ok (v i))
    (hne : ∀ i, ¬(v i = -1)) :
    storeFieldValues (counterStanzaLines d) CounterTable
        (ifaceFields v ++ stateFields v) =
      .ok (counterTableFilled v, ifaceFields v ++ stateFields v ++ counterFields v) := by
  simp [storeFieldValues, scan_counters d v hd hv, emit_counters_after v hne]

theorem stanzaStep_skip (sid : StanzaId) (st : SpecState) (f : Fields) (line : Line)
    (rest : List Line) (h : (stanzaHeader sid).isPrefixOf line = false) :
    stanzaStep sid st f line rest = .ok (st, f, line, rest) := by
  simp [stanzaStep, h]

theorem stanzaStep_hit (sid : StanzaId) (st : SpecState) (f : Fields) (line : Line)
    (rest : List Line) (lns : List Line) (line' : Line) (rest' : List Line)
    (t : List Entry) (f' : Fields)
    (h : (stanzaHeader sid).isPrefixOf line = true)
    (hc : collectStanza rest = (lns, line', rest'))
    (hs : storeFieldValues lns (stanzaTable sid st) f = .ok (t, f')) :
    stanzaStep sid st f line rest = .ok (setStanza sid st t, f', line', rest') := by
  simp [stanzaStep, h, hc, hs]

theorem stanzaStep_hit_error (sid : StanzaId) (st : SpecState) (f : Fields)
    (line : Line) (rest : List Line) (lns : List Line) (line' : Line)
    (rest' : List Line) (e : PfError)
    (h : (stanzaHeader sid).isPrefixOf line = true)
    (hc : collectStanza rest = (lns, line', rest'))
    (hs : storeFieldValues lns (stanzaTable sid st) f = .error e) :
    stanzaStep sid st f line rest = .error e := by
  simp [stanzaStep, h, hc, hs]

theorem runStanzaList_nil (st : SpecState) (f : Fields) (line : Line)
    (rest : List Line) : runStanzaList [] st f line rest = .ok (st, f, line, rest) :=
  rfl

theorem runStanzaList_cons_ok (sid : StanzaId) (sids : List StanzaId) (st : SpecState)
    (f : Fields) (line : Line) (rest : List Line) (st1 : SpecState) (f1 : Fields)
    (line1 : Line) (rest1 : List Line)
    (h : stanzaStep sid st f line rest = .ok (st1, f1, line1, rest1)) :
    runStanzaList (sid :: sids) st f line rest = runStanzaList sids st1 f1 line1 rest1 := by
  simp [runStanzaList, h]

theorem runStanzaList_cons_error (sid : StanzaId) (sids : List StanzaId)
    (st : SpecState) (f : Fields) (line : Line) (rest : List Line) (e : PfError)
    (h : stanzaStep sid st f line rest = .error e) :
    runStanzaList (sid :: sids) st f line rest = .error e := by
  simp [runStanzaList, h]

/-- A line which none of the three header patterns matches is skipped by
the whole inner stanza loop. -/
theorem runStanzaList_skip (st : SpecState) (f : Fields) (line : Line)
    (rest : List Line)
    (h1 : ("Interface Stats".data : Line).isPrefixOf line = false)
    (h2 : ("State Table".data : Line).isPrefixOf line = false)
    (h3 : ("Counters".data : Line).isPrefixOf line = false) :
    runStanzaList stanzaIds st f line rest = .ok (st, f, line, rest) := by
  unfold stanzaIds
  rw [runStanzaList_cons_ok _ _ _ _ _ _ _ _ _ _
      (stanzaStep_skip .iface st f line rest h1),
    runStanzaList_cons_ok _ _ _ _ _ _ _ _ _ _
      (stanzaStep_skip .stateTbl st f line rest h2),
    runStanzaList_cons_ok _ _ _ _ _ _ _ _ _ _
      (stanzaStep_skip .counters st f line rest h3)]
  rfl

theorem scanLoop_nil (st : SpecState) (f : Fields) : scanLoop st f [] = .ok (st, f) :=
  rfl

theorem scanLoop_cons_ok (st : SpecState) (f : Fields) (line : Line)
    (rest' : List Line) (st1 : SpecState) (f1 : Fields) (line1 : Line)
    (rest1 : List Line)
    (h : runStanzaList stanzaIds st f line rest' = .ok (st1, f1, line1, rest1)) :
    scanLoop st f (line :: rest') = scanLoop st1 f1 rest1 := by
  have hle := runStanzaList_rest_length _ _ _ _ _ _ _ _ _ h
  unfold scanLoop
  simp only [List.length_cons, scanLoopFuel, h]
  exact scanLoopFuel_irrel _ _ st1 f1 rest1 (by omega) (by omega)

theorem scanLoop_cons_error (st : SpecState) (f : Fields) (line : Line)
    (rest' : List Line) (e : PfError)
    (h : runStanzaList stanzaIds st f line rest' = .error e) :
    scanLoop st f (line :: rest') = .error e := by
  unfold scanLoop
  simp only [List.length_cons, scanLoopFuel, h]

theorem splitLinesAux_through (l : Line) (hnl : NoNL l) :
    ∀ (acc : Line) (rest : List Char),
      splitLinesAux acc (l ++ '\n' :: rest) =
        dropCR (acc.reverse ++ l) :: splitLinesAux [] rest := by
  induction l with
  | nil =>
    intro acc rest
    simp [splitLinesAux]
  | cons c t ih =>
    intro acc rest
    have hc : ¬(c = '\n') := hnl c (by simp)
    rw [List.cons_append,
      show splitLinesAux acc (c :: (t ++ '\n' :: rest)) =
        (if c = '\n' then dropCR acc.reverse :: splitLinesAux [] (t ++ '\n' :: rest)
         else splitLinesAux (c :: acc) (t ++ '\n' :: rest)) from rfl,
      if_neg hc, ih (fun a ha => hnl a (by simp [ha])) (c :: acc) rest]
    simp

theorem splitLines_nlJoin (ls : List Line)
    (h : ∀ l ∈ ls, NoNL l ∧ dropCR l = l) : splitLines (nlJoin ls) = ls := by
  unfold splitLines
  induction ls with
  | nil => rfl
  | cons l rest ih =>
    have h1 := h l (by simp)
    rw [show nlJoin (l :: rest) = l ++ '\n' :: nlJoin rest from rfl,
      splitLinesAux_through l h1.1 [] (nlJoin rest)]
    rw [show (([] : Line).reverse ++ l) = l by simp, h1.2]
    rw [ih (fun l' hl' => h l' (by simp [hl']))]

/-- A line ending in a digit payload is untouched by `dropCR`. -/
theorem dropCR_payload (x d : Line) (hd : DigitPayload d) : dropCR (x ++ d) = x ++ d := by
  obtain ⟨hne, hall⟩ := hd
  unfold dropCR
  rw [List.getLast?_append_of_ne_nil x hne]
  rcases hlast : d.getLast? with - | c
  · simp
  · have hmem : c ∈ d := List.mem_of_mem_getLast? hlast
    have hcr : ¬(c = '\r') := digit_ne_cr (hall c hmem)
    rw [if_neg (by
      intro he
      exact hcr (Option.some.injEq .. |>.mp he))]

/-- No newline in a line consisting of newline-free pieces and a digit
payload at the end. -/
theorem noNL_append (a b : Line) (ha : NoNL a) (hb : NoNL b) : NoNL (a ++ b) := by
  intro c hc
  rcases List.mem_append.mp hc with h | h
  · exact ha c h
  · exact hb c h

theorem noNL_payload (d : Line) (hd : DigitPayload d) : NoNL d := fun c hc =>
  digit_ne_nl (hd.2 c hc)

/-- Well-behavedness of a two-payload data line. -/
theorem payLine2_ok (A L : String) (d4 d6 : Line)
    (h4 : DigitPayload d4) (h6 : DigitPayload d6)
    (hA : NoNL A.data) (hL : NoNL L.data) :
    NoNL (A.data ++ (L.data ++ (" ".data ++ (d4 ++ (" ".data ++ d6))))) ∧
      dropCR (A.data ++ (L.data ++ (" ".data ++ (d4 ++ (" ".data ++ d6))))) =
        A.data ++ (L.data ++ (" ".data ++ (d4 ++ (" ".data ++ d6)))) := by
  constructor
  · exact noNL_append _ _ hA (noNL_append _ _ hL (noNL_append _ _ (by decide)
      (noNL_append _ _ (noNL_payload _ h4) (noNL_append _ _ (by decide)
        (noNL_payload _ h6)))))
  · have he : A.data ++ (L.data ++ (" ".data ++ (d4 ++ (" ".data ++ d6)))) =
        (A.data ++ (L.data ++ (" ".data ++ (d4 ++ " ".data)))) ++ d6 := by
      simp [List.append_assoc]
    rw [he]
    exact dropCR_payload _ _ h6

/-- Well-behavedness of a one-payload tag line. -/
theorem tagLine_ok (lbl : String) (d : Line) (hd : DigitPayload d)
    (hL : NoNL lbl.data) : NoNL (tagLine lbl d) ∧ dropCR (tagLine lbl d) = tagLine lbl d := by
  constructor
  · exact noNL_append _ _ (by decide) (noNL_append _ _ hL
      (noNL_append _ _ (by decide) (noNL_payload _ hd)))
  · have he : tagLine lbl d = ("  ".data ++ (lbl.data ++ " ".data)) ++ d := by
      simp [tagLine, List.append_assoc]
    rw [he]
    exact dropCR_payload _ _ hd

theorem splitLines_sample (d : Nat → Line) (hd : ∀ i, DigitPayload (d i)) :
    splitLines (sampleText d) = sampleLines d := by
  apply splitLines_nlJoin
  intro l hl
  simp only [sampleLines, List.mem_cons, List.not_mem_nil, or_false] at hl
  rcases hl with rfl | rfl | rfl | rfl | rfl | rfl | rfl | rfl | rfl | rfl | rfl |
    rfl | rfl | rfl | rfl | rfl | rfl | rfl | rfl | rfl | rfl | rfl | rfl | rfl |
    rfl | rfl | rfl | rfl | rfl | rfl
  · exact ⟨by decide, by decide⟩
  · exact payLine2_ok "  " "Bytes In" _ _ (hd 0) (hd 1) (by decide) (by decide)
  · exact payLine2_ok "  " "Bytes Out" _ _ (hd 2) (hd 3) (by decide) (by decide)
  · exact ⟨by decide, by decide⟩
  · exact payLine2_ok "    " "Passed" _ _ (hd 4) (hd 5) (by decide) (by decide)
  · exact payLine2_ok "    " "Blocked" _ _ (hd 6) (hd 7) (by decide) (by decide)
  · exact ⟨by decide, by decide⟩
  · exact payLine2_ok "    " "Passed" _ _ (hd 8) (hd 9) (by decide) (by decide)
  · exact payLine2_ok "    " "Blocked" _ _ (hd 10) (hd 11) (by decide) (by decide)
  · exact ⟨by decide, by decide⟩
  · exact tagLine_ok "current entries" _ (hd 12) (by decide)
  · exact tagLine_ok "searches" _ (hd 13) (by decide)
  · exact tagLine_ok "inserts" _ (hd 14) (by decide)
  · exact tagLine_ok "removals" _ (hd 15) (by decide)
  · exact ⟨by decide, by decide⟩
  · exact tagLine_ok "match" _ (hd 16) (by decide)
  · exact tagLine_ok "bad-offset" _ (hd 17) (by decide)
  · exact tagLine_ok "fragment" _ (hd 18) (by decide)
  · exact tagLine_ok "short" _ (hd 19) (by decide)
  · exact tagLine_ok "normalize" _ (hd 20) (by decide)
  · exact tagLine_ok "memory" _ (hd 21) (by decide)
  · exact tagLine_ok "bad-timestamp" _ (hd 22) (by decide)
  · exact tagLine_ok "congestion" _ (hd 23) (by decide)
  · exact tagLine_ok "ip-option" _ (hd 24) (by decide)
  · exact tagLine_ok "proto-cksum" _ (hd 25) (by decide)
  · exact tagLine_ok "state-mismatch" _ (hd 26) (by decide)
  · exact tagLine_ok "state-insert" _ (hd 27) (by decide)
  · exact tagLine_ok "state-limit" _ (hd 28) (by decide)
  · exact tagLine_ok "src-limit" _ (hd 29) (by decide)
  · exact tagLine_ok "synproxy" _ (hd 30) (by decide)

theorem scanLoop_sample (d : Nat → Line) (v : Nat → Int)
    (hd : ∀ i, DigitPayload (d i)) (hv : ∀ i, parseInt64 (d i) = .ok (v i))
    (hne : ∀ i, ¬(v i = -1)) :
    scanLoop freshSpecState [] (sampleLines d) = .ok (finalState v, allFields v) := by
  have h1 : stanzaStep .iface freshSpecState [] ifaceHeaderLine
      (bytesInLine (d 0) (d 1) :: bytesOutLine (d 2) (d 3) :: packetsInLine ::
        passedLine (d 4) (d 5) :: blockedLine (d 6) (d 7) :: packetsOutLine ::
        passedLine (d 8) (d 9) :: blockedLine (d 10) (d 11) :: stateHeaderLine ::
        stateTail d) =
      .ok (stAfterIface v, ifaceFields v, stateHeaderLine, stateTail d) :=
    stanzaStep_hit .iface freshSpecState [] ifaceHeaderLine _ _ _ _ _ _
      (by decide) (collect_iface d hd (stateTail d))
      (store_iface_nil d v hd hv hne)
  have h2 : stanzaStep .stateTbl (stAfterIface v) (ifaceFields v) stateHeaderLine
      (stateTail d) =
      .ok (stAfterState v, ifaceFields v ++ stateFields v, countersHeaderLine,
        stateTail.counterTail d) :=
    stanzaStep_hit .stateTbl (stAfterIface v) (ifaceFields v) stateHeaderLine _ _ _ _ _ _
      (by decide) (collect_state d hd (stateTail.counterTail d))
      (store_state_after_iface d v hd hv hne)
  have h3 : stanzaStep .counters (stAfterState v) (ifaceFields v ++ stateFields v)
      countersHeaderLine (stateTail.counterTail d) =
      .ok (finalState v, allFields v, tagLine "synproxy" (d 30), []) :=
    stanzaStep_hit .counters (stAfterState v) (ifaceFields v ++ stateFields v)
      countersHeaderLine _ _ _ _ _ _
      (by decide) (collect_counters d hd)
      (store_counters_after d v hd hv hne)
  have hrun : runStanzaList stanzaIds freshSpecState [] ifaceHeaderLine
      (bytesInLine (d 0) (d 1) :: bytesOutLine (d 2) (d 3) :: packetsInLine ::
        passedLine (d 4) (d 5) :: blockedLine (d 6) (d 7) :: packetsOutLine ::
        passedLine (d 8) (d 9) :: blockedLine (d 10) (d 11) :: stateHeaderLine ::
        stateTail d) =
      .ok (finalState v, allFields v, tagLine "synproxy" (d 30), []) := by
    unfold stanzaIds
    rw [runStanzaList_cons_ok _ _ _ _ _ _ _ _ _ _ h1,
      runStanzaList_cons_ok _ _ _ _ _ _ _ _ _ _ h2,
      runStanzaList_cons_ok _ _ _ _ _ _ _ _ _ _ h3]
    rfl
  rw [show sampleLines d = ifaceHeaderLine ::
      (bytesInLine (d 0) (d 1) :: bytesOutLine (d 2) (d 3) :: packetsInLine ::
        passedLine (d 4) (d 5) :: blockedLine (d 6) (d 7) :: packetsOutLine ::
        passedLine (d 8) (d 9) :: blockedLine (d 10) (d 11) :: stateHeaderLine ::
        stateTail d) from rfl,
    scanLoop_cons_ok _ _ _ _ _ _ _ _ hrun, scanLoop_nil]

/-- A successful full parse of the canonical sample. -/
theorem parse_sample (d : Nat → Line) (v : Nat → Int)
    (hd : ∀ i, DigitPayload (d i)) (hv : ∀ i, parseInt64 (d i) = .ok (v i))
    (hne : ∀ i, ¬(v i = -1)) :
    parsePfctlOutput freshSpecState (sampleText d) = .ok (finalState v, allFields v) := by
  unfold parsePfctlOutput
  rw [splitLines_sample d hd, scanLoop_sample d v hd hv hne]
  rfl

theorem scanStanzaLines_cons_none (l : Line) (ls : List Line) (table : List Entry)
    (h : taggedMatch l = none) :
    scanStanzaLines (l :: ls) table = scanStanzaLines ls table := by
  simp [scanStanzaLines, h]

theorem scanStanzaLines_cons_ok (l : Line) (ls : List Line) (table : List Entry)
    (lbl ds : Line) (t : List Entry) (hq : taggedMatch l = some (lbl, ds))
    (hu : updateEntries lbl ds table = .ok t) :
    scanStanzaLines (l :: ls) table = scanStanzaLines ls t := by
  simp [scanStanzaLines, hq, hu]

theorem scanStanzaLines_cons_err (l : Line) (ls : List Line) (table : List Entry)
    (lbl ds : Line) (e : PfError) (hq : taggedMatch l = some (lbl, ds))
    (hu : updateEntries lbl ds table = .error e) :
    scanStanzaLines (l :: ls) table = .error e := by
  simp [scanStanzaLines, hq, hu]

theorem scanStanzaLines_append (l1 l2 : List Line) (table : List Entry) :
    scanStanzaLines (l1 ++ l2) table =
      match scanStanzaLines l1 table with
      | .error e => .error e
      | .ok t => scanStanzaLines l2 t := by
  induction l1 generalizing table with
  | nil => simp [scanStanzaLines]
  | cons l ls ih =>
    rw [List.cons_append]
    cases hq : taggedMatch l with
    | none =>
      rw [scanStanzaLines_cons_none _ _ _ hq, scanStanzaLines_cons_none _ _ _ hq]
      exact ih table
    | some p =>
      obtain ⟨lbl, ds⟩ := p
      cases hu : updateEntries lbl ds table with
      | error e =>
        rw [scanStanzaLines_cons_err _ _ _ _ _ _ hq hu,
          scanStanzaLines_cons_err _ _ _ _ _ _ hq hu]
      | ok t =>
        rw [scanStanzaLines_cons_ok _ _ _ _ _ _ hq hu,
          scanStanzaLines_cons_ok _ _ _ _ _ _ hq hu]
        exact ih t

theorem updateEntries_no_title (lbl ds : Line) (table : List Entry)
    (h : ∀ e ∈ table, ¬(e.pfctlTitle = lbl)) :
    updateEntries lbl ds table = .ok table := by
  induction table with
  | nil => rfl
  | cons e es ih =>
    rw [show updateEntries lbl ds (e :: es) =
      (if e.pfctlTitle = lbl then
        match parseInt64 ds with
        | .error err => .error err
        | .ok v =>
          match updateEntries lbl ds es with
          | .error err => .error err
          | .ok es' => .ok ({ e with value := v } :: es')
       else
        match updateEntries lbl ds es with
        | .error err => .error err
        | .ok es' => .ok (e :: es')) from rfl,
      if_neg (h e (by simp)), ih (fun e' he' => h e' (by simp [he']))]

/-- The four state-table data lines touch no interface entry: their labels
match none of the interface titles. -/
theorem scan_state_over_iface (d : Nat → Line) (v : Nat → Int)
    (hd : ∀ i, DigitPayload (d i)) :
    scanStanzaLines (stateStanzaLines d) (ifaceTableFilled v) =
      .ok (ifaceTableFilled v) := by
  have t1 := tagLine_tagged "current entries" (d 12) (hd 12) (by decide) (by decide)
    (by decide)
  have t2 := tagLine_tagged "searches" (d 13) (hd 13) (by decide) (by decide) (by decide)
  have t3 := tagLine_tagged "inserts" (d 14) (hd 14) (by decide) (by decide) (by decide)
  have t4 := tagLine_tagged "removals" (d 15) (hd 15) (by decide) (by decide) (by decide)
  have hno : ∀ (lbl : String), lbl ∈ ["current entries", "searches", "inserts",
      "removals"] → ∀ e ∈ ifaceTableFilled v, ¬(e.pfctlTitle = lbl.data) := by
    intro lbl hlbl e he
    simp [ifaceTableFilled] at he
    fin_cases hlbl <;>
      (rcases he with rfl | rfl | rfl | rfl | rfl | rfl | rfl | rfl | rfl | rfl |
        rfl | rfl <;> simp +decide)
  simp only [stateStanzaLines, scanStanzaLines, t1, t2, t3, t4,
    updateEntries_no_title _ _ _ (hno "current entries" (by simp)),
    updateEntries_no_title _ _ _ (hno "searches" (by simp)),
    updateEntries_no_title _ _ _ (hno "inserts" (by simp)),
    updateEntries_no_title _ _ _ (hno "removals" (by simp))]

theorem collect_iface_noState (d : Nat → Line) (hd : ∀ i, DigitPayload (d i))
    (tail : List Line) :
    collect (bytesInLine (d 0) (d 1))
      (bytesOutLine (d 2) (d 3) :: packetsInLine :: passedLine (d 4) (d 5) ::
        blockedLine (d 6) (d 7) :: packetsOutLine :: passedLine (d 8) (d 9) ::
        blockedLine (d 10) (d 11) :: tagLine "current entries" (d 12) ::
        tagLine "searches" (d 13) :: tagLine "inserts" (d 14) ::
        tagLine "removals" (d 15) :: countersHeaderLine :: tail) []
      = (ifaceStanzaLines d ++ stateStanzaLines d, countersHeaderLine, tail) := by
  obtain ⟨hbi1, hbi2, hbi3⟩ := bytesInLine_facts (d 0) (d 1) (hd 0) (hd 1)
  obtain ⟨hbo1, hbo2, hbo3⟩ := bytesOutLine_facts (d 2) (d 3) (hd 2) (hd 3)
  obtain ⟨h1a, h1b, h1c⟩ := tagLine_collect_facts 'c' "urrent entries".data
    "current entries" (d 12) rfl (by decide) (by decide) (by decide)
  obtain ⟨h2a, h2b, h2c⟩ := tagLine_collect_facts 's' "earches".data
    "searches" (d 13) rfl (by decide) (by decide) (by decide)
  obtain ⟨h3a, h3b, h3c⟩ := tagLine_collect_facts 'i' "nserts".data
    "inserts" (d 14) rfl (by decide) (by decide) (by decide)
  obtain ⟨h4a, h4b, h4c⟩ := tagLine_collect_facts 'r' "emovals".data
    "removals" (d 15) rfl (by decide) (by decide) (by decide)
  rw [collect_other_cons _ _ _ _ hbi1 hbi2, lineTransform_of_bytes _ _ _ _ hbi3,
    collect_other_cons _ _ _ _ hbo1 hbo2, lineTransform_of_bytes _ _ _ _ hbo3,
    collect_packets_long _ _ _ _ _ _ _ (by decide) packetsInLine_match,
    packetsExpand_of _ _ _ _ _ (passedLine_ipv (d 4) (d 5) (hd 4) (hd 5)),
    packetsExpand_of _ _ _ _ _ (blockedLine_ipv (d 6) (d 7) (hd 6) (hd 7)),
    collect_packets_long _ _ _ _ _ _ _ (by decide) packetsOutLine_match,
    packetsExpand_of _ _ _ _ _ (passedLine_ipv (d 8) (d 9) (hd 8) (hd 9)),
    packetsExpand_of _ _ _ _ _ (blockedLine_ipv (d 10) (d 11) (hd 10) (hd 11)),
    collect_other_cons _ _ _ _ h1a h1b,
    collect_other_cons _ _ _ _ h2a h2b,
    collect_other_cons _ _ _ _ h3a h3b,
    collect_other_cons _ _ _ _ h4a h4b,
    collect_header _ _ _ (by decide)]
  simp [ifaceStanzaLines, stateStanzaLines, lineTransform, h1c, h2c, h3c, h4c]

theorem store_iface_noState (d : Nat → Line) (v : Nat → Int)
    (hd : ∀ i, DigitPayload (d i)) (hv : ∀ i, parseInt64 (d i) = .ok (v i))
    (hne : ∀ i, ¬(v i = -1)) :
    storeFieldValues (ifaceStanzaLines d ++ stateStanzaLines d) InterfaceTable [] =
      .ok (ifaceTableFilled v, ifaceFields v) := by
  simp [storeFieldValues, scanStanzaLines_append, scan_iface d v hd hv,
    scan_state_over_iface d v hd, emit_iface v hne]

theorem emit_counters_after_iface (v : Nat → Int) (hne : ∀ i, ¬(v i = -1)) :
    emitFields (counterTableFilled v) (ifaceFields v) =
      .ok (ifaceFields v ++ counterFields v) := by
  rw [emitFields_fresh (counterTableFilled v) (ifaceFields v)
    (by intro e he; simp [counterTableFilled] at he
        rcases he with rfl | rfl | rfl | rfl | rfl | rfl | rfl | rfl | rfl | rfl |
          rfl | rfl | rfl | rfl | rfl <;> exact hne _)
    (by intro e he; simp [counterTableFilled] at he
        rcases he with rfl | rfl | rfl | rfl | rfl | rfl | rfl | rfl | rfl | rfl |
          rfl | rfl | rfl | rfl | rfl <;>
          simp +decide [lookupField, ifaceFields])
    (by simp +decide [counterTableFilled, List.pairwise_cons])]
  simp [entryFields, counterTableFilled, ifaceFields, counterFields]

theorem store_counters_after_iface (d : Nat → Line) (v : Nat → Int)
    (hd : ∀ i, DigitPayload (d i)) (hv : ∀ i, parseInt64 (d i) = .ok (v i))
    (hne : ∀ i, ¬(v i = -1)) :
    storeFieldValues (counterStanzaLines d) CounterTable (ifaceFields v) =
      .ok (counterTableFilled v, ifaceFields v ++ counterFields v) := by
  simp [storeFieldValues, scan_counters d v hd hv, emit_counters_after_iface v hne]

theorem emit_state_nil (v : Nat → Int) (hne : ∀ i, ¬(v i = -1)) :
    emitFields (stateTableFilled v) [] = .ok (stateFields v) := by
  rw [emitFields_fresh (stateTableFilled v) []
    (by intro e he; simp [stateTableFilled] at he
        rcases he with rfl | rfl | rfl | rfl <;> exact hne _)
    (fun e _ => rfl)
    (by simp +decide [stateTableFilled, List.pairwise_cons])]
  simp [entryFields, stateTableFilled, stateFields]

theorem store_state_nil (d : Nat → Line) (v : Nat → Int)
    (hd : ∀ i, DigitPayload (d i)) (hv : ∀ i, parseInt64 (d i) = .ok (v i))
    (hne : ∀ i, ¬(v i = -1)) :
    storeFieldValues (stateStanzaLines d) StateTable [] =
      .ok (stateTableFilled v, stateFields v) := by
  simp [storeFieldValues, scan_state d v hd hv, emit_state_nil v hne]

theorem emit_counters_after_state (v : Nat → Int) (hne : ∀ i, ¬(v i = -1)) :
    emitFields (counterTableFilled v) (stateFields v) =
      .ok (stateFields v ++ counterFields v) := by
  rw [emitFields_fresh (counterTableFilled v) (stateFields v)
    (by intro e he; simp [counterTableFilled] at he
        rcases he with rfl | rfl | rfl | rfl | rfl | rfl | rfl | rfl | rfl | rfl |
          rfl | rfl | rfl | rfl | rfl <;> exact hne _)
    (by intro e he; simp [counterTableFilled] at he
        rcases he with rfl | rfl | rfl | rfl | rfl | rfl | rfl | rfl | rfl | rfl |
          rfl | rfl | rfl | rfl | rfl <;>
          simp +decide [lookupField, stateFields])
    (by simp +decide [counterTableFilled, List.pairwise_cons])]
  simp [entryFields, counterTableFilled, stateFields, counterFields]

theorem store_counters_after_state (d : Nat → Line) (v : Nat → Int)
    (hd : ∀ i, DigitPayload (d i)) (hv : ∀ i, parseInt64 (d i) = .ok (v i))
    (hne : ∀ i, ¬(v i = -1)) :
    storeFieldValues (counterStanzaLines d) CounterTable (stateFields v) =
      .ok (counterTableFilled v, stateFields v ++ counterFields v) := by
  simp [storeFieldValues, scan_counters d v hd hv, emit_counters_after_state v hne]

/-- A line starting with a whitespace character matches none of the three
stanza header patterns. -/
theorem skipLine_facts (w : Char) (r : Line) (hw : goSpace w = true) :
    ("Interface Stats".data : Line).isPrefixOf (w :: r) = false ∧
    ("State Table".data : Line).isPrefixOf (w :: r) = false ∧
    ("Counters".data : Line).isPrefixOf (w :: r) = false := by
  rcases goSpace_cases hw with rfl | rfl | rfl | rfl | rfl <;> exact ⟨rfl, rfl, rfl⟩

/-- A data line (leading blank) matches no stanza header: the whole inner
loop leaves it alone. -/
theorem runStanzaList_skip_space (st : SpecState) (f : Fields) (line : Line)
    (rest : List Line) (h : line.head? = some ' ') :
    runStanzaList stanzaIds st f line rest = .ok (st, f, line, rest) := by
  cases line with
  | nil => simp at h
  | cons c r =>
    simp only [List.head?_cons, Option.some.injEq] at h
    subst h
    exact runStanzaList_skip st f (' ' :: r) rest
      (skipLine_facts ' ' r (by decide)).1
      (skipLine_facts ' ' r (by decide)).2.1
      (skipLine_facts ' ' r (by decide)).2.2

theorem bytesInLine_head (d4 d6 : Line) : (bytesInLine d4 d6).head? = some ' ' := rfl

theorem bytesOutLine_head (d4 d6 : Line) : (bytesOutLine d4 d6).head? = some ' ' := rfl

theorem passedLine_head (d4 d6 : Line) : (passedLine d4 d6).head? = some ' ' := rfl

theorem blockedLine_head (d4 d6 : Line) : (blockedLine d4 d6).head? = some ' ' := rfl

theorem packetsInLine_head : packetsInLine.head? = some ' ' := rfl

theorem packetsOutLine_head : packetsOutLine.head? = some ' ' := rfl

theorem conds_sample (d : Nat → Line) (hd : ∀ i, DigitPayload (d i)) :
    ∀ l ∈ sampleLines d, NoNL l ∧ dropCR l = l := by
  have h := splitLines_sample d hd
  intro l hl
  simp only [sampleLines, List.mem_cons, List.not_mem_nil, or_false] at hl
  rcases hl with rfl | rfl | rfl | rfl | rfl | rfl | rfl | rfl | rfl | rfl | rfl |
    rfl | rfl | rfl | rfl | rfl | rfl | rfl | rfl | rfl | rfl | rfl | rfl | rfl |
    rfl | rfl | rfl | rfl | rfl | rfl
  · exact ⟨by decide, by decide⟩
  · exact payLine2_ok "  " "Bytes In" _ _ (hd 0) (hd 1) (by decide) (by decide)
  · exact payLine2_ok "  " "Bytes Out" _ _ (hd 2) (hd 3) (by decide) (by decide)
  · exact ⟨by decide, by decide⟩
  · exact payLine2_ok "    " "Passed" _ _ (hd 4) (hd 5) (by decide) (by decide)
  · exact payLine2_ok "    " "Blocked" _ _ (hd 6) (hd 7) (by decide) (by decide)
  · exact ⟨by decide, by decide⟩
  · exact payLine2_ok "    " "Passed" _ _ (hd 8) (hd 9) (by decide) (by decide)
  · exact payLine2_ok "    " "Blocked" _ _ (hd 10) (hd 11) (by decide) (by decide)
  · exact ⟨by decide, by decide⟩
  · exact tagLine_ok "current entries" _ (hd 12) (by decide)
  · exact tagLine_ok "searches" _ (hd 13) (by decide)
  · exact tagLine_ok "inserts" _ (hd 14) (by decide)
  · exact tagLine_ok "removals" _ (hd 15) (by decide)
  · exact ⟨by decide, by decide⟩
  · exact tagLine_ok "match" _ (hd 16) (by decide)
  · exact tagLine_ok "bad-offset" _ (hd 17) (by decide)
  · exact tagLine_ok "fragment" _ (hd 18) (by decide)
  · exact tagLine_ok "short" _ (hd 19) (by decide)
  · exact tagLine_ok "normalize" _ (hd 20) (by decide)
  · exact tagLine_ok "memory" _ (hd 21) (by decide)
  · exact tagLine_ok "bad-timestamp" _ (hd 22) (by decide)
  · exact tagLine_ok "congestion" _ (hd 23) (by decide)
  · exact tagLine_ok "ip-option" _ (hd 24) (by decide)
  · exact tagLine_ok "proto-cksum" _ (hd 25) (by decide)
  · exact tagLine_ok "state-mismatch" _ (hd 26) (by decide)
  · exact tagLine_ok "state-insert" _ (hd 27) (by decide)
  · exact tagLine_ok "state-limit" _ (hd 28) (by decide)
  · exact tagLine_ok "src-limit" _ (hd 29) (by decide)
  · exact tagLine_ok "synproxy" _ (hd 30) (by decide)

theorem mem_sample_noState (d : Nat → Line) :
    ∀ l ∈ sampleLinesNoState d, l ∈ sampleLines d := by
  intro l hl
  simp only [sampleLinesNoState, stateTail.counterTail, List.mem_cons,
    List.not_mem_nil, or_false] at hl
  rcases hl with rfl | rfl | rfl | rfl | rfl | rfl | rfl | rfl | rfl | rfl | rfl | rfl | rfl | rfl | rfl | rfl | rfl | rfl | rfl | rfl | rfl | rfl | rfl | rfl | rfl | rfl | rfl | rfl | rfl <;>
    simp [sampleLines, stateTail, stateTail.counterTail]

theorem mem_sample_noIface (d : Nat → Line) :
    ∀ l ∈ sampleLinesNoIface d, l ∈ sampleLines d := by
  intro l hl
  simp only [sampleLinesNoIface, stateTail, stateTail.counterTail, List.mem_cons,
    List.not_mem_nil, or_false] at hl
  rcases hl with rfl | rfl | rfl | rfl | rfl | rfl | rfl | rfl | rfl | rfl | rfl | rfl | rfl | rfl | rfl | rfl | rfl | rfl | rfl | rfl | rfl | rfl | rfl | rfl | rfl | rfl | rfl | rfl | rfl <;>
    simp [sampleLines, stateTail, stateTail.counterTail]

theorem mem_sample_noRemovals (d : Nat → Line) :
    ∀ l ∈ sampleLinesNoRemovals d, l ∈ sampleLines d := by
  intro l hl
  simp only [sampleLinesNoRemovals, stateTail.counterTail, List.mem_cons,
    List.not_mem_nil, or_false] at hl
  rcases hl with rfl | rfl | rfl | rfl | rfl | rfl | rfl | rfl | rfl | rfl | rfl | rfl | rfl | rfl | rfl | rfl | rfl | rfl | rfl | rfl | rfl | rfl | rfl | rfl | rfl | rfl | rfl | rfl | rfl <;>
    simp [sampleLines, stateTail, stateTail.counterTail]

theorem splitLines_sample_noState (d : Nat → Line) (hd : ∀ i, DigitPayload (d i)) :
    splitLines (sampleTextNoState d) = sampleLinesNoState d :=
  splitLines_nlJoin _ (fun l hl => conds_sample d hd l (mem_sample_noState d l hl))

theorem splitLines_sample_noIface (d : Nat → Line) (hd : ∀ i, DigitPayload (d i)) :
    splitLines (sampleTextNoIface d) = sampleLinesNoIface d :=
  splitLines_nlJoin _ (fun l hl => conds_sample d hd l (mem_sample_noIface d l hl))

theorem splitLines_sample_noRemovals (d : Nat → Line) (hd : ∀ i, DigitPayload (d i)) :
    splitLines (sampleTextNoRemovals d) = sampleLinesNoRemovals d :=
  splitLines_nlJoin _ (fun l hl => conds_sample d hd l (mem_sample_noRemovals d l hl))

/-- Deleting the `State Table` header makes the interface stanza swallow the
state data lines and the final completeness check fail. -/
theorem parse_sample_noState (d : Nat → Line) (v : Nat → Int)
    (hd : ∀ i, DigitPayload (d i)) (hv : ∀ i, parseInt64 (d i) = .ok (v i))
    (hne : ∀ i, ¬(v i = -1)) :
    parsePfctlOutput freshSpecState (sampleTextNoState d) = .error .parseHeader := by
  have h1 : stanzaStep .iface freshSpecState [] ifaceHeaderLine
      (bytesInLine (d 0) (d 1) :: bytesOutLine (d 2) (d 3) :: packetsInLine ::
        passedLine (d 4) (d 5) :: blockedLine (d 6) (d 7) :: packetsOutLine ::
        passedLine (d 8) (d 9) :: blockedLine (d 10) (d 11) ::
        tagLine "current entries" (d 12) :: tagLine "searches" (d 13) ::
        tagLine "inserts" (d 14) :: tagLine "removals" (d 15) ::
        countersHeaderLine :: stateTail.counterTail d) =
      .ok (stAfterIface v, ifaceFields v, countersHeaderLine,
        stateTail.counterTail d) :=
    stanzaStep_hit .iface freshSpecState [] ifaceHeaderLine _ _ _ _ _ _
      (by decide) (collect_iface_noState d hd (stateTail.counterTail d))
      (store_iface_noState d v hd hv hne)
  have h2 : stanzaStep .stateTbl (stAfterIface v) (ifaceFields v) countersHeaderLine
      (stateTail.counterTail d) =
      .ok (stAfterIface v, ifaceFields v, countersHeaderLine,
        stateTail.counterTail d) :=
    stanzaStep_skip .stateTbl _ _ _ _ (by decide)
  have h3 : stanzaStep .counters (stAfterIface v) (ifaceFields v) countersHeaderLine
      (stateTail.counterTail d) =
      .ok (⟨true, false, true, ifaceTableFilled v, StateTable, counterTableFilled v⟩,
        ifaceFields v ++ counterFields v, tagLine "synproxy" (d 30), []) :=
    stanzaStep_hit .counters (stAfterIface v) (ifaceFields v) countersHeaderLine
      _ _ _ _ _ _ (by decide) (collect_counters d hd)
      (store_counters_after_iface d v hd hv hne)
  have hrun : runStanzaList stanzaIds freshSpecState [] ifaceHeaderLine
      (bytesInLine (d 0) (d 1) :: bytesOutLine (d 2) (d 3) :: packetsInLine ::
        passedLine (d 4) (d 5) :: blockedLine (d 6) (d 7) :: packetsOutLine ::
        passedLine (d 8) (d 9) :: blockedLine (d 10) (d 11) ::
        tagLine "current entries" (d 12) :: tagLine "searches" (d 13) ::
        tagLine "inserts" (d 14) :: tagLine "removals" (d 15) ::
        countersHeaderLine :: stateTail.counterTail d) =
      .ok (⟨true, false, true, ifaceTableFilled v, StateTable, counterTableFilled v⟩,
        ifaceFields v ++ counterFields v, tagLine "synproxy" (d 30), []) := by
    unfold stanzaIds
    rw [runStanzaList_cons_ok _ _ _ _ _ _ _ _ _ _ h1,
      runStanzaList_cons_ok _ _ _ _ _ _ _ _ _ _ h2,
      runStanzaList_cons_ok _ _ _ _ _ _ _ _ _ _ h3]
    rfl
  unfold parsePfctlOutput
  rw [splitLines_sample_noState d hd,
    show sampleLinesNoState d = ifaceHeaderLine ::
      (bytesInLine (d 0) (d 1) :: bytesOutLine (d 2) (d 3) :: packetsInLine ::
        passedLine (d 4) (d 5) :: blockedLine (d 6) (d 7) :: packetsOutLine ::
        passedLine (d 8) (d 9) :: blockedLine (d 10) (d 11) ::
        tagLine "current entries" (d 12) :: tagLine "searches" (d 13) ::
        tagLine "inserts" (d 14) :: tagLine "removals" (d 15) ::
        countersHeaderLine :: stateTail.counterTail d) from rfl,
    scanLoop_cons_ok _ _ _ _ _ _ _ _ hrun, scanLoop_nil]
  rfl

/-- Deleting only the `Interface Stats` header line: its data lines are
skipped, the two mandatory stanzas still parse, no error. -/
theorem parse_sample_noIface (d : Nat → Line) (v : Nat → Int)
    (hd : ∀ i, DigitPayload (d i)) (hv : ∀ i, parseInt64 (d i) = .ok (v i))
    (hne : ∀ i, ¬(v i = -1)) :
    parsePfctlOutput freshSpecState (sampleTextNoIface d) =
      .ok (⟨false, true, true, InterfaceTable, stateTableFilled v,
        counterTableFilled v⟩, stateFields v ++ counterFields v) := by
  have h2 : stanzaStep .stateTbl freshSpecState [] stateHeaderLine (stateTail d) =
      .ok (⟨false, true, false, InterfaceTable, stateTableFilled v, CounterTable⟩,
        stateFields v, countersHeaderLine, stateTail.counterTail d) :=
    stanzaStep_hit .stateTbl freshSpecState [] stateHeaderLine _ _ _ _ _ _
      (by decide) (collect_state d hd (stateTail.counterTail d))
      (store_state_nil d v hd hv hne)
  have h3 : stanzaStep .counters
      (⟨false, true, false, InterfaceTable, stateTableFilled v, CounterTable⟩ :
        SpecState)
      (stateFields v) countersHeaderLine (stateTail.counterTail d) =
      .ok (⟨false, true, true, InterfaceTable, stateTableFilled v,
        counterTableFilled v⟩, stateFields v ++ counterFields v,
        tagLine "synproxy" (d 30), []) :=
    stanzaStep_hit .counters _ (stateFields v) countersHeaderLine _ _ _ _ _ _
      (by decide) (collect_counters d hd)
      (store_counters_after_state d v hd hv hne)
  have hrun : runStanzaList stanzaIds freshSpecState [] stateHeaderLine
      (stateTail d) =
      .ok (⟨false, true, true, InterfaceTable, stateTableFilled v,
        counterTableFilled v⟩, stateFields v ++ counterFields v,
        tagLine "synproxy" (d 30), []) := by
    unfold stanzaIds
    rw [runStanzaList_cons_ok _ _ _ _ _ _ _ _ _ _
        (stanzaStep_skip .iface freshSpecState [] stateHeaderLine (stateTail d)
          (by decide)),
      runStanzaList_cons_ok _ _ _ _ _ _ _ _ _ _ h2,
      runStanzaList_cons_ok _ _ _ _ _ _ _ _ _ _ h3]
    rfl
  unfold parsePfctlOutput
  rw [splitLines_sample_noIface d hd]
  rw [show sampleLinesNoIface d = bytesInLine (d 0) (d 1) ::
      (bytesOutLine (d 2) (d 3) :: packetsInLine :: passedLine (d 4) (d 5) ::
        blockedLine (d 6) (d 7) :: packetsOutLine :: passedLine (d 8) (d 9) ::
        blockedLine (d 10) (d 11) :: stateHeaderLine :: stateTail d) from rfl]
  rw [scanLoop_cons_ok _ _ _ _ _ _ _ _
    (runStanzaList_skip_space _ _ _ _ (bytesInLine_head _ _))]
  rw [scanLoop_cons_ok _ _ _ _ _ _ _ _
    (runStanzaList_skip_space _ _ _ _ (bytesOutLine_head _ _))]
  rw [scanLoop_cons_ok _ _ _ _ _ _ _ _
    (runStanzaList_skip_space _ _ _ _ packetsInLine_head)]
  rw [scanLoop_cons_ok _ _ _ _ _ _ _ _
    (runStanzaList_skip_space _ _ _ _ (passedLine_head _ _))]
  rw [scanLoop_cons_ok _ _ _ _ _ _ _ _
    (runStanzaList_skip_space _ _ _ _ (blockedLine_head _ _))]
  rw [scanLoop_cons_ok _ _ _ _ _ _ _ _
    (runStanzaList_skip_space _ _ _ _ packetsOutLine_head)]
  rw [scanLoop_cons_ok _ _ _ _ _ _ _ _
    (runStanzaList_skip_space _ _ _ _ (passedLine_head _ _))]
  rw [scanLoop_cons_ok _ _ _ _ _ _ _ _
    (runStanzaList_skip_space _ _ _ _ (blockedLine_head _ _))]
  rw [scanLoop_cons_ok _ _ _ _ _ _ _ _ hrun, scanLoop_nil]
  rfl

/-- The three state lines collected when the `removals` line is missing. -/
theorem collect_state_noRemovals (d : Nat → Line) (tail : List Line) :
    collect (tagLine "current entries" (d 12))
      (tagLine "searches" (d 13) :: tagLine "inserts" (d 14) ::
        countersHeaderLine :: tail) []
      = ([tagLine "current entries" (d 12), tagLine "searches" (d 13),
          tagLine "inserts" (d 14)], countersHeaderLine, tail) := by
  obtain ⟨h1a, h1b, h1c⟩ := tagLine_collect_facts 'c' "urrent entries".data
    "current entries" (d 12) rfl (by decide) (by decide) (by decide)
  obtain ⟨h2a, h2b, h2c⟩ := tagLine_collect_facts 's' "earches".data
    "searches" (d 13) rfl (by decide) (by decide) (by decide)
  obtain ⟨h3a, h3b, h3c⟩ := tagLine_collect_facts 'i' "nserts".data
    "inserts" (d 14) rfl (by decide) (by decide) (by decide)
  rw [collect_other_cons _ _ _ _ h1a h1b,
    collect_other_cons _ _ _ _ h2a h2b,
    collect_other_cons _ _ _ _ h3a h3b,
    collect_header _ _ _ (by decide)]
  simp [lineTransform, h1c, h2c, h3c]

theorem scan_state_noRemovals (d : Nat → Line) (v : Nat → Int)
    (hd : ∀ i, DigitPayload (d i)) (hv : ∀ i, parseInt64 (d i) = .ok (v i)) :
    scanStanzaLines [tagLine "current entries" (d 12), tagLine "searches" (d 13),
      tagLine "inserts" (d 14)] StateTable = .ok (stateTablePartial v) := by
  have t1 := tagLine_tagged "current entries" (d 12) (hd 12) (by decide) (by decide)
    (by decide)
  have t2 := tagLine_tagged "searches" (d 13) (hd 13) (by decide) (by decide) (by decide)
  have t3 := tagLine_tagged "inserts" (d 14) (hd 14) (by decide) (by decide) (by decide)
  simp only [scanStanzaLines, t1, t2, t3]
  simp +decide [updateEntries, StateTable, hv 12, hv 13, hv 14, stateTablePartial]

theorem emit_state_noRemovals (v : Nat → Int) (hne : ∀ i, ¬(v i = -1)) :
    emitFields (stateTablePartial v) (ifaceFields v) =
      .error (.missingData "removals".data) := by
  simp +decide [emitFields, stateTablePartial, setField, ifaceFields, hne]

theorem store_state_noRemovals (d : Nat → Line) (v : Nat → Int)
    (hd : ∀ i, DigitPayload (d i)) (hv : ∀ i, parseInt64 (d i) = .ok (v i))
    (hne : ∀ i, ¬(v i = -1)) :
    storeFieldValues [tagLine "current entries" (d 12), tagLine "searches" (d 13),
      tagLine "inserts" (d 14)] StateTable (ifaceFields v) =
      .error (.missingData "removals".data) := by
  simp [storeFieldValues, scan_state_noRemovals d v hd hv, emit_state_noRemovals v hne]

/-- A missing `removals` line: the extractor reports the missing counter and
the whole parse aborts. -/
theorem parse_sample_noRemovals (d : Nat → Line) (v : Nat → Int)
    (hd : ∀ i, DigitPayload (d i)) (hv : ∀ i, parseInt64 (d i) = .ok (v i))
    (hne : ∀ i, ¬(v i = -1)) :
    parsePfctlOutput freshSpecState (sampleTextNoRemovals d) =
      .error (.missingData "removals".data) := by
  have h1 : stanzaStep .iface freshSpecState [] ifaceHeaderLine
      (bytesInLine (d 0) (d 1) :: bytesOutLine (d 2) (d 3) :: packetsInLine ::
        passedLine (d 4) (d 5) :: blockedLine (d 6) (d 7) :: packetsOutLine ::
        passedLine (d 8) (d 9) :: blockedLine (d 10) (d 11) :: stateHeaderLine ::
        tagLine "current entries" (d 12) :: tagLine "searches" (d 13) ::
        tagLine "inserts" (d 14) :: countersHeaderLine :: stateTail.counterTail d) =
      .ok (stAfterIface v, ifaceFields v, stateHeaderLine,
        tagLine "current entries" (d 12) :: tagLine "searches" (d 13) ::
        tagLine "inserts" (d 14) :: countersHeaderLine :: stateTail.counterTail d) :=
    stanzaStep_hit .iface freshSpecState [] ifaceHeaderLine _ _ _ _ _ _
      (by decide) (collect_iface d hd _) (store_iface_nil d v hd hv hne)
  have h2 : stanzaStep .stateTbl (stAfterIface v) (ifaceFields v) stateHeaderLine
      (tagLine "current entries" (d 12) :: tagLine "searches" (d 13) ::
        tagLine "inserts" (d 14) :: countersHeaderLine :: stateTail.counterTail d) =
      .error (.missingData "removals".data) :=
    stanzaStep_hit_error .stateTbl (stAfterIface v) (ifaceFields v) stateHeaderLine
      _ _ _ _ _ (by decide)
      (collect_state_noRemovals d (stateTail.counterTail d))
      (store_state_noRemovals d v hd hv hne)
  have hrun : runStanzaList stanzaIds freshSpecState [] ifaceHeaderLine
      (bytesInLine (d 0) (d 1) :: bytesOutLine (d 2) (d 3) :: packetsInLine ::
        passedLine (d 4) (d 5) :: blockedLine (d 6) (d 7) :: packetsOutLine ::
        passedLine (d 8) (d 9) :: blockedLine (d 10) (d 11) :: stateHeaderLine ::
        tagLine "current entries" (d 12) :: tagLine "searches" (d 13) ::
        tagLine "inserts" (d 14) :: countersHeaderLine :: stateTail.counterTail d) =
      .error (.missingData "removals".data) := by
    unfold stanzaIds
    rw [runStanzaList_cons_ok _ _ _ _ _ _ _ _ _ _ h1,
      runStanzaList_cons_error _ _ _ _ _ _ _ h2]
  unfold parsePfctlOutput
  rw [splitLines_sample_noRemovals d hd,
    show sampleLinesNoRemovals d = ifaceHeaderLine ::
      (bytesInLine (d 0) (d 1) :: bytesOutLine (d 2) (d 3) :: packetsInLine ::
        passedLine (d 4) (d 5) :: blockedLine (d 6) (d 7) :: packetsOutLine ::
        passedLine (d 8) (d 9) :: blockedLine (d 10) (d 11) :: stateHeaderLine ::
        tagLine "current entries" (d 12) :: tagLine "searches" (d 13) ::
        tagLine "inserts" (d 14) :: countersHeaderLine :: stateTail.counterTail d)
      from rfl,
    scanLoop_cons_error _ _ _ _ _ hrun]

/-- The digit capture of `oneIntTail` is an all-digit run. -/
theorem oneIntTail_digits (l ds : Line) (h : oneIntTail l = some ds) :
    ∀ c ∈ ds, goDigit c = true := by
  unfold oneIntTail at h
  split at h
  · exact absurd h (by simp)
  · split at h
    · exact absurd h (by simp)
    · simp only [Option.some.injEq] at h
      subst h
      intro c hc
      exact List.mem_takeWhile_imp hc

/-- The digit capture of the lazy search is an all-digit run. -/
theorem taggedSearch_digits (l acc lbl ds : Line)
    (h : taggedSearch acc l = some (lbl, ds)) : ∀ c ∈ ds, goDigit c = true := by
  induction l generalizing acc with
  | nil => exact absurd h (by simp [taggedSearch])
  | cons c cs ih =>
    rw [show taggedSearch acc (c :: cs) =
        (match oneIntTail (c :: cs) with
         | some d => some (acc.reverse, d)
         | none => if c = '\n' then none else taggedSearch (c :: acc) cs) from rfl] at h
    cases ho : oneIntTail (c :: cs) with
    | some d0 =>
      rw [ho] at h
      simp only [Option.some.injEq, Prod.mk.injEq] at h
      obtain ⟨-, rfl⟩ := h
      exact oneIntTail_digits _ _ ho
    | none =>
      rw [ho] at h
      by_cases hc : c = '\n'
      · rw [if_pos hc] at h
        exact absurd h (by simp)
      · rw [if_neg hc] at h
        exact ih _ h

/-- The digit capture survives the whitespace-length backtracking. -/
theorem taggedTryWs_digits (k : Nat) (l lbl ds : Line)
    (h : taggedTryWs k l = some (lbl, ds)) : ∀ c ∈ ds, goDigit c = true := by
  induction k with
  | zero => exact absurd h (by simp [taggedTryWs])
  | succ k ih =>
    rw [show taggedTryWs (k + 1) l =
        (match taggedSearch [] (l.drop (k + 1)) with
         | some r => some r
         | none => taggedTryWs k l) from rfl] at h
    cases hs : taggedSearch [] (l.drop (k + 1)) with
    | some r =>
      rw [hs] at h
      simp only [Option.some.injEq] at h
      subst h
      exact taggedSearch_digits _ _ _ _ hs
    | none =>
      rw [hs] at h
      exact ih h

/-- The value capture of the generic label-integer pattern is an unsigned
digit run. -/
theorem taggedMatch_digits (l lbl ds : Line) (h : taggedMatch l = some (lbl, ds)) :
    ∀ c ∈ ds, goDigit c = true :=
  taggedTryWs_digits _ _ _ _ h

theorem updateEntries_valuesOk (lbl ds : Line) (t t' : List Entry)
    (hds : ∀ c ∈ ds, goDigit c = true) (ht : ValuesOk t)
    (h : updateEntries lbl ds t = .ok t') : ValuesOk t' := by
  induction t generalizing t' with
  | nil =>
    simp only [updateEntries, Except.ok.injEq] at h
    subst h
    intro e he
    exact absurd he (by simp)
  | cons e es ih =>
    rw [show updateEntries lbl ds (e :: es) =
        (if e.pfctlTitle = lbl then
          match parseInt64 ds with
          | .error err => .error err
          | .ok v =>
            match updateEntries lbl ds es with
            | .error err => .error err
            | .ok es' => .ok ({ e with value := v } :: es')
        else
          match updateEntries lbl ds es with
          | .error err => .error err
          | .ok es' => .ok (e :: es')) from rfl] at h
    have htes : ValuesOk es := fun x hx => ht x (List.mem_cons_of_mem _ hx)
    by_cases he : e.pfctlTitle = lbl
    · rw [if_pos he] at h
      cases hp : parseInt64 ds with
      | error err => rw [hp] at h; exact absurd h (by simp)
      | ok v =>
        rw [hp] at h
        cases hu : updateEntries lbl ds es with
        | error err => rw [hu] at h; exact absurd h (by simp)
        | ok es' =>
          rw [hu] at h
          simp only [Except.ok.injEq] at h
          subst h
          intro x hx
          rcases List.mem_cons.mp hx with rfl | hx'
          · exact Or.inr (parseInt64_digits_nonneg ds v hds hp)
          · exact ih es' htes hu x hx'
    · rw [if_neg he] at h
      cases hu : updateEntries lbl ds es with
      | error err => rw [hu] at h; exact absurd h (by simp)
      | ok es' =>
        rw [hu] at h
        simp only [Except.ok.injEq] at h
        subst h
        intro x hx
        rcases List.mem_cons.mp hx with rfl | hx'
        · exact ht x (by simp)
        · exact ih es' htes hu x hx'

theorem scanStanzaLines_valuesOk (ls : List Line) (t t' : List Entry)
    (ht : ValuesOk t) (h : scanStanzaLines ls t = .ok t') : ValuesOk t' := by
  induction ls generalizing t with
  | nil =>
    simp only [scanStanzaLines, Except.ok.injEq] at h
    subst h
    exact ht
  | cons l ls ih =>
    cases hq : taggedMatch l with
    | none =>
      rw [scanStanzaLines_cons_none l ls t hq] at h
      exact ih t ht h
    | some p =>
      obtain ⟨lbl, ds⟩ := p
      cases hu : updateEntries lbl ds t with
      | error e =>
        rw [scanStanzaLines_cons_err l ls t lbl ds e hq hu] at h
        exact absurd h (by simp)
      | ok t1 =>
        rw [scanStanzaLines_cons_ok l ls t lbl ds t1 hq hu] at h
        exact ih t1 (updateEntries_valuesOk lbl ds t t1
          (taggedMatch_digits l lbl ds hq) ht hu) h

theorem setField_fieldsOk (f : Fields) (k : Line) (v : Int)
    (hv : 0 ≤ v) : FieldsOk f → FieldsOk (setField f k v) := by
  induction f with
  | nil =>
    intro _ p hp
    simp only [setField, List.mem_singleton] at hp
    subst hp
    exact hv
  | cons q rest ih =>
    intro hf p hp
    rw [show setField (q :: rest) k v =
        (if q.1 = k then (k, v) :: rest else q :: setField rest k v) from
      (by cases q; rfl)] at hp
    by_cases hk : q.1 = k
    · rw [if_pos hk] at hp
      rcases List.mem_cons.mp hp with rfl | hp'
      · exact hv
      · exact hf p (List.mem_cons_of_mem _ hp')
    · rw [if_neg hk] at hp
      rcases List.mem_cons.mp hp with rfl | hp'
      · exact hf p (by simp)
      · exact ih (fun x hx => hf x (List.mem_cons_of_mem _ hx)) p hp'

theorem emitFields_fieldsOk (t : List Entry) (f f' : Fields)
    (ht : ValuesOk t) (hf : FieldsOk f) (h : emitFields t f = .ok f') :
    FieldsOk f' := by
  induction t generalizing f with
  | nil =>
    simp only [emitFields, Except.ok.injEq] at h
    subst h
    exact hf
  | cons e es ih =>
    rw [show emitFields (e :: es) f =
        (if e.value = -1 then .error (.missingData e.pfctlTitle)
         else emitFields es (setField f e.field e.value)) from rfl] at h
    by_cases hv : e.value = -1
    · rw [if_pos hv] at h
      exact absurd h (by simp)
    · rw [if_neg hv] at h
      have h0 : 0 ≤ e.value := by
        rcases ht e (by simp) with h1 | h1
        · exact absurd h1 hv
        · exact h1
      exact ih (setField f e.field e.value)
        (fun x hx => ht x (List.mem_cons_of_mem _ hx))
        (setField_fieldsOk f e.field e.value h0 hf) h

theorem storeFieldValues_inv (lines : List Line) (t : List Entry) (f : Fields)
    (t' : List Entry) (f' : Fields) (ht : ValuesOk t) (hf : FieldsOk f)
    (h : storeFieldValues lines t f = .ok (t', f')) : ValuesOk t' ∧ FieldsOk f' := by
  unfold storeFieldValues at h
  cases hs : scanStanzaLines lines t with
  | error e => rw [hs] at h; exact absurd h (by simp)
  | ok t1 =>
    rw [hs] at h
    cases he : emitFields t1 f with
    | error e => simp only [he] at h; exact absurd h (by simp)
    | ok f1 =>
      simp only [he, Except.ok.injEq, Prod.mk.injEq] at h
      obtain ⟨rfl, rfl⟩ := h
      have ht1 := scanStanzaLines_valuesOk lines t t1 ht hs
      exact ⟨ht1, emitFields_fieldsOk t1 f f1 ht1 hf he⟩

theorem stanzaStep_inv (sid : StanzaId) (st : SpecState) (f : Fields) (line : Line)
    (rest : List Line) (st' : SpecState) (f' : Fields) (line' : Line)
    (rest' : List Line) (hst : StateOk st) (hf : FieldsOk f)
    (h : stanzaStep sid st f line rest = .ok (st', f', line', rest')) :
    StateOk st' ∧ FieldsOk f' := by
  unfold stanzaStep at h
  by_cases hh : (stanzaHeader sid).isPrefixOf line = true
  · rw [if_pos hh] at h
    cases hs : storeFieldValues (collectStanza rest).1 (stanzaTable sid st) f with
    | error e => rw [hs] at h; exact absurd h (by simp)
    | ok q =>
      obtain ⟨t, fnew⟩ := q
      rw [hs] at h
      simp only [Except.ok.injEq, Prod.mk.injEq] at h
      obtain ⟨rfl, rfl, -, -⟩ := h
      have htab : ValuesOk (stanzaTable sid st) := by
        cases sid
        · exact hst.1
        · exact hst.2.1
        · exact hst.2.2
      obtain ⟨ht', hf'⟩ := storeFieldValues_inv _ _ _ _ _ htab hf hs
      refine ⟨?_, hf'⟩
      cases sid
      · exact ⟨ht', hst.2.1, hst.2.2⟩
      · exact ⟨hst.1, ht', hst.2.2⟩
      · exact ⟨hst.1, hst.2.1, ht'⟩
  · rw [if_neg hh] at h
    simp only [Except.ok.injEq, Prod.mk.injEq] at h
    obtain ⟨rfl, rfl, -, -⟩ := h
    exact ⟨hst, hf⟩

theorem runStanzaList_inv (sids : List StanzaId) (st : SpecState) (f : Fields)
    (line : Line) (rest : List Line) (st' : SpecState) (f' : Fields) (line' : Line)
    (rest' : List Line) (hst : StateOk st) (hf : FieldsOk f)
    (h : runStanzaList sids st f line rest = .ok (st', f', line', rest')) :
    StateOk st' ∧ FieldsOk f' := by
  induction sids generalizing st f line rest with
  | nil =>
    simp only [runStanzaList, Except.ok.injEq, Prod.mk.injEq] at h
    obtain ⟨rfl, rfl, -, -⟩ := h
    exact ⟨hst, hf⟩
  | cons sid sids ih =>
    simp only [runStanzaList] at h
    cases hs : stanzaStep sid st f line rest with
    | error e => rw [hs] at h; exact absurd h (by simp)
    | ok q =>
      obtain ⟨st1, f1, line1, rest1⟩ := q
      rw [hs] at h
      obtain ⟨hst1, hf1⟩ := stanzaStep_inv _ _ _ _ _ _ _ _ _ hst hf hs
      exact ih st1 f1 line1 rest1 hst1 hf1 h

theorem scanLoopFuel_inv (n : Nat) (st : SpecState) (f : Fields) (rest : List Line)
    (st' : SpecState) (f' : Fields) (hst : StateOk st) (hf : FieldsOk f)
    (h : scanLoopFuel n st f rest = .ok (st', f')) : StateOk st' ∧ FieldsOk f' := by
  induction n generalizing st f rest with
  | zero =>
    simp only [scanLoopFuel, Except.ok.injEq, Prod.mk.injEq] at h
    obtain ⟨rfl, rfl⟩ := h
    exact ⟨hst, hf⟩
  | succ n ih =>
    cases rest with
    | nil =>
      simp only [scanLoopFuel, Except.ok.injEq, Prod.mk.injEq] at h
      obtain ⟨rfl, rfl⟩ := h
      exact ⟨hst, hf⟩
    | cons line rest' =>
      simp only [scanLoopFuel] at h
      cases hr : runStanzaList stanzaIds st f line rest' with
      | error e => rw [hr] at h; exact absurd h (by simp)
      | ok q =>
        obtain ⟨st1, f1, line1, rest1⟩ := q
        rw [hr] at h
        obtain ⟨hst1, hf1⟩ := runStanzaList_inv _ _ _ _ _ _ _ _ _ hst hf hr
        exact ih st1 f1 rest1 hst1 hf1 h

theorem freshSpecState_ok : StateOk freshSpecState := by
  refine ⟨?_, ?_, ?_⟩ <;>
    · intro e he
      left
      revert he
      revert e
      decide

theorem parsePfctlOutput_fieldsOk (st : SpecState) (input : List Char)
    (st' : SpecState) (f : Fields) (hst : StateOk st)
    (h : parsePfctlOutput st input = .ok (st', f)) : FieldsOk f := by
  unfold parsePfctlOutput at h
  cases hs : scanLoop st [] (splitLines input) with
  | error e => rw [hs] at h; exact absurd h (by simp)
  | ok q =>
    obtain ⟨st1, f1⟩ := q
    rw [hs] at h
    cases hc : checkFound stanzaIds st1 with
    | some e => simp only [hc] at h; exact absurd h (by simp)
    | none =>
      simp only [hc, Except.ok.injEq, Prod.mk.injEq] at h
      obtain ⟨-, rfl⟩ := h
      exact (scanLoopFuel_inv _ _ _ _ _ _ hst (fun p hp => absurd hp (by simp)) hs).2

/-- The constant all-100 digit payload used to run the parameterized
sample theorems on one concrete sample. -/
theorem d100_payload : DigitPayload "100".data := by
  decide

theorem d100_parse : parseInt64 "100".data = .ok 100 := by
  decide

theorem v100_sentinel_free : ¬((100 : Int) = -1) := by
  decide

/-- C1: on a well-formed three-stanza sample the parse succeeds and the
output map's key set is the protocol-split one (`bytes4-in`, `bytes6-in`,
... plus the state and counter keys); the single interface keys of the
documented contract (`bytes-in`, ...) are not among them. -/
theorem C1_split_key_set (d : Nat → Line) (v : Nat → Int)
    (hd : ∀ i, DigitPayload (d i)) (hv : ∀ i, parseInt64 (d i) = .ok (v i))
    (hne : ∀ i, ¬(v i = -1)) :
    parsePfctlOutput freshSpecState (sampleText d) =
      .ok (finalState v, allFields v) ∧
    (allFields v).map Prod.fst =
      ["bytes4-in".data, "bytes4-out".data, "bytes6-in".data, "bytes6-out".data,
       "packets4-in-passed".data, "packets4-in-blocked".data,
       "packets4-out-passed".data, "packets4-out-blocked".data,
       "packets6-in-passed".data, "packets6-in-blocked".data,
       "packets6-out-passed".data, "packets6-out-blocked".data,
       "entries".data, "searches".data, "inserts".data, "removals".data,
       "match".data, "bad-offset".data, "fragment".data, "short".data,
       "normalize".data, "memory".data, "bad-timestamp".data, "congestion".data,
       "ip-option".data, "proto-cksum".data, "state-mismatch".data,
       "state-insert".data, "state-limit".data, "src-limit".data,
       "synproxy".data] ∧
    lookupField (allFields v) "bytes-in".data = none :=
  ⟨parse_sample d v hd hv hne, rfl, rfl⟩

/-- A run of C1 on the all-100 sample. -/
theorem C1_split_key_set_witness :
    parsePfctlOutput freshSpecState (sampleText (fun _ => "100".data)) =
      .ok (finalState (fun _ => 100), allFields (fun _ => 100)) ∧
    (allFields (fun _ => 100)).map Prod.fst =
      ["bytes4-in".data, "bytes4-out".data, "bytes6-in".data, "bytes6-out".data,
       "packets4-in-passed".data, "packets4-in-blocked".data,
       "packets4-out-passed".data, "packets4-out-blocked".data,
       "packets6-in-passed".data, "packets6-in-blocked".data,
       "packets6-out-passed".data, "packets6-out-blocked".data,
       "entries".data, "searches".data, "inserts".data, "removals".data,
       "match".data, "bad-offset".data, "fragment".data, "short".data,
       "normalize".data, "memory".data, "bad-timestamp".data, "congestion".data,
       "ip-option".data, "proto-cksum".data, "state-mismatch".data,
       "state-insert".data, "state-limit".data, "src-limit".data,
       "synproxy".data] ∧
    lookupField (allFields (fun _ => 100)) "bytes-in".data = none :=
  C1_split_key_set (fun _ => "100".data) (fun _ => 100)
    (fun _ => d100_payload) (fun _ => d100_parse) (fun _ => v100_sentinel_free)

/-- A successful parse of `pfSample` whose output map holds none of the
single interface keys the documented contract promises. -/
theorem C1_single_keys_refuted :
    parsePfctlOutput freshSpecState pfSample.data = .ok pfRes ∧
    lookupField pfRes.2 "bytes-in".data = none ∧
    lookupField pfRes.2 "bytes-out".data = none ∧
    lookupField pfRes.2 "packets-in-passed".data = none ∧
    lookupField pfRes.2 "bytes4-in".data = some 100 := by
  decide

/-- C2: deleting the `State Table` header from an otherwise valid sample
fails the parse with the section-not-found error, while deleting only the
`Interface Stats` header leaves a successful parse (the stanza is
optional). -/
theorem C2_state_header_mandatory (d : Nat → Line) (v : Nat → Int)
    (hd : ∀ i, DigitPayload (d i)) (hv : ∀ i, parseInt64 (d i) = .ok (v i))
    (hne : ∀ i, ¬(v i = -1)) :
    parsePfctlOutput freshSpecState (sampleTextNoState d) = .error .parseHeader ∧
    parsePfctlOutput freshSpecState (sampleTextNoIface d) =
      .ok (⟨false, true, true, InterfaceTable, stateTableFilled v,
        counterTableFilled v⟩, stateFields v ++ counterFields v) :=
  ⟨parse_sample_noState d v hd hv hne, parse_sample_noIface d v hd hv hne⟩

/-- A run of C2 on the all-100 sample. -/
theorem C2_state_header_mandatory_witness :
    parsePfctlOutput freshSpecState (sampleTextNoState (fun _ => "100".data)) =
      .error .parseHeader ∧
    parsePfctlOutput freshSpecState (sampleTextNoIface (fun _ => "100".data)) =
      .ok (⟨false, true, true, InterfaceTable, stateTableFilled (fun _ => 100),
        counterTableFilled (fun _ => 100)⟩,
        stateFields (fun _ => 100) ++ counterFields (fun _ => 100)) :=
  C2_state_header_mandatory (fun _ => "100".data) (fun _ => 100)
    (fun _ => d100_payload) (fun _ => d100_parse) (fun _ => v100_sentinel_free)

/-- C3: a state-table stanza with no `removals` line fails the parse with
the missing-data error naming `removals`, and nothing is handed to the
sink. -/
theorem C3_missing_removals (d : Nat → Line) (v : Nat → Int)
    (hd : ∀ i, DigitPayload (d i)) (hv : ∀ i, parseInt64 (d i) = .ok (v i))
    (hne : ∀ i, ¬(v i = -1)) :
    parsePfctlOutput freshSpecState (sampleTextNoRemovals d) =
      .error (.missingData "removals".data) ∧
    gatherParse freshSpecState (sampleTextNoRemovals d) =
      ([], some (.missingData "removals".data)) := by
  have h := parse_sample_noRemovals d v hd hv hne
  refine ⟨h, ?_⟩
  unfold gatherParse
  rw [h]

/-- A run of C3 on the all-100 sample. -/
theorem C3_missing_removals_witness :
    parsePfctlOutput freshSpecState (sampleTextNoRemovals (fun _ => "100".data)) =
      .error (.missingData "removals".data) ∧
    gatherParse freshSpecState (sampleTextNoRemovals (fun _ => "100".data)) =
      ([], some (.missingData "removals".data)) :=
  C3_missing_removals (fun _ => "100".data) (fun _ => 100)
    (fun _ => d100_payload) (fun _ => d100_parse) (fun _ => v100_sentinel_free)

/-- C4: a `Bytes In 100 200` line splits into the two synthetic protocol
records `Bytes In IPv4 100` and `Bytes In IPv6 200`, and extraction of the
sample stores all four byte values under the protocol-split keys. -/
theorem C4_bytes_protocol_records :
    lineTransform "  Bytes In    100    200".data =
      ["  Bytes In IPv4 100".data, "  Bytes In IPv6 200".data] ∧
    lineTransform "  Bytes Out   300    400".data =
      ["  Bytes Out IPv4 300".data, "  Bytes Out IPv6 400".data] ∧
    parsePfctlOutput freshSpecState pfSample.data = .ok pfRes ∧
    lookupField pfRes.2 "bytes4-in".data = some 100 ∧
    lookupField pfRes.2 "bytes6-in".data = some 200 ∧
    lookupField pfRes.2 "bytes4-out".data = some 300 ∧
    lookupField pfRes.2 "bytes6-out".data = some 400 := by
  decide

/-- The parse of `pfSample` does not store the byte values under the single
keys the documented contract names. -/
theorem C4_single_bytes_key_refuted :
    parsePfctlOutput freshSpecState pfSample.data = .ok pfRes ∧
    ¬(lookupField pfRes.2 "bytes-in".data = some 100) ∧
    ¬(lookupField pfRes.2 "bytes-out".data = some 300) := by
  decide

/-- C5: the `Packets In` block with `Passed 10 20` and `Blocked 30 40`
stores the IPv4 components 10 and 30 and the IPv6 components 20 and 40
under the protocol-split keys. -/
theorem C5_packets_protocol_records :
    parsePfctlOutput freshSpecState pfSample.data = .ok pfRes ∧
    lookupField pfRes.2 "packets4-in-passed".data = some 10 ∧
    lookupField pfRes.2 "packets4-in-blocked".data = some 30 ∧
    lookupField pfRes.2 "packets6-in-passed".data = some 20 ∧
    lookupField pfRes.2 "packets6-in-blocked".data = some 40 ∧
    lookupField pfRes.2 "packets-in-passed".data = none ∧
    lookupField pfRes.2 "packets-in-blocked".data = none := by
  decide

/-- The parse of `pfSample` does not store the packet values under the
single keys the documented contract names. -/
theorem C5_single_packets_key_refuted :
    parsePfctlOutput freshSpecState pfSample.data = .ok pfRes ∧
    ¬(lookupField pfRes.2 "packets-in-passed".data = some 10) ∧
    ¬(lookupField pfRes.2 "packets-in-blocked".data = some 30) := by
  decide

/-- C6: the sink receives fields exactly when the parse returns no error:
on an error nothing is emitted and the error is surfaced, on success the
one emission carries the parse's field map. -/
theorem C6_emission_iff_success (st : SpecState) (input : List Char) :
    (¬((gatherParse st input).1 = []) ↔
      ∃ r, parsePfctlOutput st input = .ok r) ∧
    (∀ e, parsePfctlOutput st input = .error e →
      gatherParse st input = ([], some e)) ∧
    (∀ r, parsePfctlOutput st input = .ok r →
      gatherParse st input = ([(measurement, r.2)], none)) := by
  cases h : parsePfctlOutput st input with
  | error e =>
    refine ⟨?_, ?_, ?_⟩
    · simp [gatherParse, h]
    · intro e2 he
      simp only [Except.error.injEq] at he
      subst he
      simp [gatherParse, h]
    · intro r hr
      exact absurd hr (by simp)
  | ok r =>
    refine ⟨?_, ?_, ?_⟩
    · simp [gatherParse, h]
    · intro e2 he
      exact absurd he (by simp)
    · intro r2 hr
      simp only [Except.ok.injEq] at hr
      subst hr
      simp [gatherParse, h]

/-- C7: the empty input yields the section-not-found error and no
emission. -/
theorem C7_empty_input :
    parsePfctlOutput freshSpecState "".data = .error .parseHeader ∧
    gatherParse freshSpecState "".data = ([], some .parseHeader) := by
  decide

/-- C8: a packet sub-line off the dual-integer format contributes no
synthetic lines, a `Packets In/Out` line at the end of input expands to
nothing, the scanner itself never errors on either, and the failure of the
`c8Sample` document (its `Passed` sub-line replaced by garbage) surfaces
only as the extractor's missing-data error. -/
theorem C8_malformed_packets_skip :
    (∀ pfx l, IPvMatch l = none → packetsExpand pfx l = []) ∧
    (∀ line acc pfx, anyTableHeader line = false → packetsMatch line = some pfx →
      collect line [] acc = (acc, line, [])) ∧
    parsePfctlOutput freshSpecState c8Sample.data =
      .error (.missingData "Packets In Passed IPv4".data) ∧
    gatherParse freshSpecState c8Sample.data =
      ([], some (.missingData "Packets In Passed IPv4".data)) := by
  refine ⟨?_, ?_, ?_, ?_⟩
  · intro pfx l h
    simp [packetsExpand, h]
  · intro line acc pfx h1 h2
    simp [collect, h1, h2]
  · decide
  · decide

/-- C9: two parse runs on the same text, each from the fresh spec state,
return the same output map (and the same final state). -/
theorem C9_fresh_runs_agree (input : List Char) (st1 st2 : SpecState)
    (f1 f2 : Fields)
    (h1 : parsePfctlOutput freshSpecState input = .ok (st1, f1))
    (h2 : parsePfctlOutput freshSpecState input = .ok (st2, f2)) :
    f1 = f2 ∧ st1 = st2 := by
  have h := h1.symm.trans h2
  simp only [Except.ok.injEq, Prod.mk.injEq] at h
  exact ⟨h.2, h.1⟩

/-- Two concrete runs of C9 on `pfSample`. -/
theorem C9_fresh_runs_agree_witness : pfRes.2 = pfRes.2 ∧ pfRes.1 = pfRes.1 :=
  C9_fresh_runs_agree pfSample.data pfRes.1 pfRes.1 pfRes.2 pfRes.2
    (by decide) (by decide)

/-- C10: every value a successful parse stores in the output map is
non-negative, hence in particular never the sentinel -1 that marks a
counter as not yet seen. -/
theorem C10_output_values_nonneg (input : List Char) (st' : SpecState)
    (f : Fields) (h : parsePfctlOutput freshSpecState input = .ok (st', f)) :
    ∀ p ∈ f, 0 ≤ p.2 ∧ ¬(p.2 = -1) := by
  intro p hp
  have h0 := parsePfctlOutput_fieldsOk freshSpecState input st' f
    freshSpecState_ok h p hp
  exact ⟨h0, by omega⟩

/-- A run of C10 on the first field of `pfSample`. -/
theorem C10_output_values_nonneg_witness :
    0 ≤ (("bytes4-in".data, (100 : Int)) : Line × Int).2 ∧
      ¬((("bytes4-in".data, (100 : Int)) : Line × Int).2 = -1) :=
  C10_output_values_nonneg pfSample.data pfRes.1 pfRes.2 (by decide)
    ("bytes4-in".data, 100) (by decide)

end PF
